import Mathlib

/-!
# Book lending system: the lending state machine and its store

A shallow embedding of `src/src/app.js`.  The persisted JSON file is a `Store`
(`none` when the file is missing or unreadable), a request handler is a pure
function from the document it loaded and its inputs to the response it sends
and the document it hands to `writeData` (if it reaches that call), and the
route functions (`postBorrow`, `postReturn`, ...) thread the store through
`readData` and `writeData`.

Modelling conventions
* JSON strings are `String`, JSON arrays are `List`, a request field that may
  be missing is `Option String` (`none` is JavaScript's `undefined`).
* `Date.now()` is an input `nowMs : Nat`; `new Date().toISOString()` is an
  input `nowIso : String`.
* Whether the file write inside `writeData` succeeds is an input
  `writeOk : Bool`; a failed write leaves the file as it was.
* Third-party and built-in library behaviour the handlers call
  (`moment`, `String.prototype.toLowerCase`) is taken as a parameter `Env`.
-/

namespace BookLending

/-! ## Data model (the JSON document of `data/events.json`) -/

/-- A registered user, as pushed by `POST /api/register`. -/
structure User where
  id : String
  username : String
  password : String
  name : String
deriving DecidableEq, Repr

/-- A catalog entry, as pushed by `POST /api/books`. -/
structure Book where
  id : String
  title : String
  author : String
  category : String
  available : Bool
deriving DecidableEq, Repr

/-- A ledger entry, as pushed by `POST /api/borrow`.  `returnDate` is the field
that `POST /api/return` adds; it is absent (`none`) until then. -/
structure BorrowRecord where
  id : String
  bookId : String
  bookTitle : String
  bookAuthor : String
  category : String
  borrowerName : String
  borrowedBy : String
  borrowedDate : String
  dueDate : String
  returned : Bool
  returnDate : Option String
deriving DecidableEq, Repr

/-- The whole persisted document: `{ users, books, borrowedBooks }`. -/
structure Document where
  users : List User
  books : List Book
  borrowedBooks : List BorrowRecord
deriving DecidableEq, Repr

/-- The document `readData` falls back to: three empty collections. -/
def emptyDocument : Document := ⟨[], [], []⟩

/-! ## HTTP responses -/

/-- The JSON body of a response. -/
inductive Body where
  | message (m : String)
  | book (b : Book)
  | record (r : BorrowRecord)
  | books (bs : List Book)
  | records (rs : List BorrowRecord)
  | categories (cs : List String)
  | session (token : String) (id : String) (username : String) (name : String)
deriving DecidableEq, Repr

/-- What a handler sends: `res.status(status).json(body)`. -/
structure Response where
  status : Nat
  body : Body
deriving DecidableEq, Repr

/-! ## JavaScript helpers -/

/-- JavaScript truthiness of a request field that is a string or missing:
`!x` is true exactly when `x` is `undefined` or the empty string. -/
def truthy : Option String → Bool
  | none => false
  | some s => s != ""

/-- JavaScript `Array.prototype.findIndex`: the position of the first element satisfying
`p`; `none` stands for the result `-1`. -/
def findIndex {α : Type} (p : α → Bool) : List α → Option Nat
  | [] => none
  | a :: as => if p a then some 0 else (findIndex p as).map (· + 1)

/-- JavaScript `String.prototype.includes`: `t` occurs in `s` as a contiguous substring. -/
def includes (s t : String) : Bool :=
  s.data.tails.any (fun l => t.data.isPrefixOf l)

/-- Library behaviour used by `GET /api/borrowed`.
* `toLowerCase s` is `s.toLowerCase()`.
* `moment s` is the instant (milliseconds) that `moment(s)` denotes, `none`
  when the moment is invalid.
* `startOfDay t` is `.startOf("day")` in the server's time zone. -/
structure Env where
  toLowerCase : String → String
  moment : String → Option Int
  startOfDay : Int → Int

/-- Moment comparison `a.isSame(b)`: both valid and the same instant. -/
def isSame : Option Int → Option Int → Bool
  | some a, some b => a == b
  | _, _ => false

/-- Moment comparison `a.isBefore(b)`: both valid and `a` strictly earlier. -/
def isBefore : Option Int → Option Int → Bool
  | some a, some b => a < b
  | _, _ => false

/-! ## Persisted store: `readData` / `writeData` -/

/-- The backing file: `none` when it is missing, unreadable or not JSON. -/
abbrev Store := Option Document

/-- Helper `readData`: the stored document, or the empty document when
`fs.readJson` throws. -/
def readData (s : Store) : Document :=
  match s with
  | some data => data
  | none => emptyDocument

/-- Helper `writeData`: overwrite the file with `data` and return `true`, or, when
`fs.writeJson` throws, log and return `false`. -/
def writeData (s : Store) (data : Document) (writeOk : Bool) : Store × Bool :=
  if writeOk then (some data, true) else (s, false)

/-! ## Handlers

Each handler is the body of the route's `try` block, as a function of the
document returned by `readData`.  The second component of the result is the
argument of the handler's `writeData` call, `none` when the handler returns
before reaching it. -/

/-- The `catch` branch of every route. -/
def serverError : Response := ⟨500, .message "Server error"⟩

/-- Body of `POST /api/register`. -/
structure RegisterRequest where
  username : Option String
  password : Option String
  name : Option String
deriving DecidableEq, Repr

/-- Handler of `POST /api/register`; `hashedPassword` is the value of
`bcrypt.hash(password, 10)`. -/
def registerUser (data : Document) (req : RegisterRequest) (hashedPassword : String)
    (nowMs : Nat) : Response × Option Document :=
  if !truthy req.username || !truthy req.password || !truthy req.name then
    (⟨400, .message "All fields are required"⟩, none)
  else
    match req.username, req.name with
    | some username, some name =>
      if data.users.any (fun user => user.username == username) then
        (⟨400, .message "Username already exists"⟩, none)
      else
        let newUser : User :=
          { id := toString nowMs, username := username, password := hashedPassword, name := name }
        (⟨201, .message "User registered successfully"⟩,
          some { data with users := data.users ++ [newUser] })
    | _, _ => (serverError, none)

/-- Body of `POST /api/books`. -/
structure AddBookRequest where
  title : Option String
  author : Option String
  category : Option String
deriving DecidableEq, Repr

/-- Handler of `POST /api/books`. -/
def addBook (data : Document) (req : AddBookRequest) (nowMs : Nat) :
    Response × Option Document :=
  if !truthy req.title || !truthy req.author || !truthy req.category then
    (⟨400, .message "Title, author, and category are required"⟩, none)
  else
    match req.title, req.author, req.category with
    | some title, some author, some category =>
      let newBook : Book :=
        { id := toString nowMs, title := title, author := author, category := category,
          available := true }
      (⟨201, .book newBook⟩, some { data with books := data.books ++ [newBook] })
    | _, _, _ => (serverError, none)

/-- Body of `POST /api/borrow`. -/
structure BorrowRequest where
  bookId : Option String
  borrowerName : Option String
  dueDate : Option String
deriving DecidableEq, Repr

/-- Handler of `POST /api/borrow`; `userId` is `req.user.id`. -/
def borrow (data : Document) (req : BorrowRequest) (userId : String) (nowMs : Nat)
    (nowIso : String) : Response × Option Document :=
  if !truthy req.bookId || !truthy req.borrowerName || !truthy req.dueDate then
    (⟨400, .message "Book ID, borrower name, and due date are required"⟩, none)
  else
    match req.bookId, req.borrowerName, req.dueDate with
    | some bookId, some borrowerName, some dueDate =>
      match findIndex (fun book => book.id == bookId) data.books with
      | none => (⟨404, .message "Book not found"⟩, none)
      | some bookIndex =>
        match data.books[bookIndex]? with
        | none => (serverError, none)
        | some book =>
          if !book.available then
            (⟨400, .message "Book is already borrowed"⟩, none)
          else
            let books := data.books.modify (fun b => { b with available := false }) bookIndex
            let borrowedBook : BorrowRecord :=
              { id := toString nowMs, bookId := bookId, bookTitle := book.title,
                bookAuthor := book.author, category := book.category,
                borrowerName := borrowerName, borrowedBy := userId, borrowedDate := nowIso,
                dueDate := dueDate, returned := false, returnDate := none }
            (⟨201, .record borrowedBook⟩,
              some { data with books := books,
                               borrowedBooks := data.borrowedBooks ++ [borrowedBook] })
    | _, _, _ => (serverError, none)

/-- Handler of `POST /api/return`; `borrowId` is `req.body.borrowId`. -/
def giveBack (data : Document) (borrowId : Option String) (nowIso : String) :
    Response × Option Document :=
  if !truthy borrowId then
    (⟨400, .message "Borrow ID is required"⟩, none)
  else
    match borrowId with
    | some borrowId =>
      match findIndex (fun borrow => borrow.id == borrowId) data.borrowedBooks with
      | none => (⟨404, .message "Borrowed book record not found"⟩, none)
      | some borrowIndex =>
        match data.borrowedBooks[borrowIndex]? with
        | none => (serverError, none)
        | some record =>
          if record.returned then
            (⟨400, .message "Book is already returned"⟩, none)
          else
            let updated : BorrowRecord :=
              { record with returned := true, returnDate := some nowIso }
            let borrowedBooks :=
              data.borrowedBooks.modify
                (fun r => { r with returned := true, returnDate := some nowIso }) borrowIndex
            let books :=
              match findIndex (fun book => book.id == updated.bookId) data.books with
              | none => data.books
              | some bookIndex =>
                data.books.modify (fun b => { b with available := true }) bookIndex
            (⟨200, .record updated⟩,
              some { data with books := books, borrowedBooks := borrowedBooks })
    | none => (serverError, none)

/-- Query string of `GET /api/borrowed`. -/
structure BorrowedQuery where
  category : Option String
  borrowerName : Option String
  dueDate : Option String
  overdue : Option String
deriving DecidableEq, Repr

/-- Handler of `GET /api/borrowed`: the list sent with status 200.  `userId` is
`req.user.id` and `nowMs` the instant `moment()` reads. -/
def queryBorrowed (E : Env) (data : Document) (userId : String) (q : BorrowedQuery)
    (nowMs : Int) : List BorrowRecord :=
  let borrowedBooks := data.borrowedBooks.filter (fun book => book.borrowedBy == userId)
  let borrowedBooks :=
    match q.category with
    | some category =>
      if category != "" then borrowedBooks.filter (fun book => book.category == category)
      else borrowedBooks
    | none => borrowedBooks
  let borrowedBooks :=
    match q.borrowerName with
    | some borrowerName =>
      if borrowerName != "" then
        borrowedBooks.filter (fun book =>
          includes (E.toLowerCase book.borrowerName) (E.toLowerCase borrowerName))
      else borrowedBooks
    | none => borrowedBooks
  let borrowedBooks :=
    match q.dueDate with
    | some dueDate =>
      if dueDate != "" then
        let targetDate := (E.moment dueDate).map E.startOfDay
        borrowedBooks.filter (fun book =>
          isSame ((E.moment book.dueDate).map E.startOfDay) targetDate)
      else borrowedBooks
    | none => borrowedBooks
  let borrowedBooks :=
    if q.overdue == some "true" then
      let today := some (E.startOfDay nowMs)
      borrowedBooks.filter (fun book => !book.returned && isBefore (E.moment book.dueDate) today)
    else borrowedBooks
  borrowedBooks

/-! ## Routes: handler between `readData` and `writeData`

The handlers await `writeData` and discard the boolean it returns, so the
response is the handler's whatever `writeOk` is. -/

/-- Run a handler result against the store. -/
def commit (s : Store) (r : Response × Option Document) (writeOk : Bool) : Response × Store :=
  match r.2 with
  | none => (r.1, s)
  | some data => (r.1, (writeData s data writeOk).1)

/-- Route `POST /api/register`. -/
def postRegister (s : Store) (req : RegisterRequest) (hashedPassword : String) (nowMs : Nat)
    (writeOk : Bool) : Response × Store :=
  commit s (registerUser (readData s) req hashedPassword nowMs) writeOk

/-- Route `POST /api/books` (after `authenticateToken` has accepted the token). -/
def postBooks (s : Store) (req : AddBookRequest) (nowMs : Nat) (writeOk : Bool) :
    Response × Store :=
  commit s (addBook (readData s) req nowMs) writeOk

/-- Route `POST /api/borrow` (after `authenticateToken` has accepted the token). -/
def postBorrow (s : Store) (req : BorrowRequest) (userId : String) (nowMs : Nat)
    (nowIso : String) (writeOk : Bool) : Response × Store :=
  commit s (borrow (readData s) req userId nowMs nowIso) writeOk

/-- Route `POST /api/return` (after `authenticateToken` has accepted the token). -/
def postReturn (s : Store) (borrowId : Option String) (nowIso : String) (writeOk : Bool) :
    Response × Store :=
  commit s (giveBack (readData s) borrowId nowIso) writeOk

/-- Route `GET /api/borrowed` (after `authenticateToken` has accepted the token). -/
def getBorrowed (E : Env) (s : Store) (userId : String) (q : BorrowedQuery) (nowMs : Int) :
    Response :=
  ⟨200, .records (queryBorrowed E (readData s) userId q nowMs)⟩

/-! ## Serialized call sequences -/

/-- One writing request together with everything it reads from its
environment: the clock and whether its file write succeeds. -/
inductive Call where
  | register (req : RegisterRequest) (hashedPassword : String) (nowMs : Nat) (writeOk : Bool)
  | addBook (req : AddBookRequest) (nowMs : Nat) (writeOk : Bool)
  | borrow (req : BorrowRequest) (userId : String) (nowMs : Nat) (nowIso : String)
      (writeOk : Bool)
  | giveBack (borrowId : Option String) (nowIso : String) (writeOk : Bool)
deriving DecidableEq, Repr

/-- The call is one of the two lending transitions. -/
def Call.isLending : Call → Bool
  | .borrow .. => true
  | .giveBack .. => true
  | _ => false

/-- Serve one call: the response and the store it leaves. -/
def serve (s : Store) : Call → Response × Store
  | .register req h t ok => postRegister s req h t ok
  | .addBook req t ok => postBooks s req t ok
  | .borrow req u t iso ok => postBorrow s req u t iso ok
  | .giveBack id iso ok => postReturn s id iso ok

/-- Serve a sequence of calls one after the other (no interleaving). -/
def serveAll (s : Store) : List Call → Store
  | [] => s
  | c :: cs => serveAll (serve s c).2 cs

/-! ## Properties stated by the specification -/

/-- Number of ledger entries for `bookId` that are not returned. -/
def activeCount (d : Document) (bookId : String) : Nat :=
  d.borrowedBooks.countP (fun r => r.bookId == bookId && !r.returned)

/-- The availability invariant of the data model: a book is unavailable exactly
when exactly one non-returned ledger entry references it. -/
def AvailabilityMatchesLedger (d : Document) : Prop :=
  ∀ b ∈ d.books, (b.available = false ↔ activeCount d b.id = 1)

/-- The book ids of the catalog are pairwise distinct. -/
def DistinctBookIds (d : Document) : Prop :=
  (d.books.map (fun b => b.id)).Nodup

/-- Every available book has no non-returned entry and every unavailable book
has exactly one. -/
def LedgerTracksBooks (d : Document) : Prop :=
  ∀ b ∈ d.books, activeCount d b.id = if b.available then 0 else 1

/-- At most one non-returned ledger entry per book id. -/
def SingleActiveBorrow (d : Document) : Prop :=
  ∀ bookId, activeCount d bookId ≤ 1

/-- The book that `bookId` resolves to: the first catalog entry with that id. -/
def resolveBook (d : Document) (bookId : String) : Option Book :=
  d.books.find? (fun book => book.id == bookId)

/-- The record that `borrowId` resolves to: the first ledger entry with that id. -/
def resolveRecord (d : Document) (borrowId : String) : Option BorrowRecord :=
  d.borrowedBooks.find? (fun borrow => borrow.id == borrowId)

/-! ## Invariants maintained by the lending transitions -/

/-- The invariant that the lending transitions maintain on a catalog with
distinct ids. -/
def LendingInv (d : Document) : Prop :=
  DistinctBookIds d ∧ LedgerTracksBooks d

instance (d : Document) : Decidable (AvailabilityMatchesLedger d) := by
  unfold AvailabilityMatchesLedger; infer_instance

instance (d : Document) : Decidable (DistinctBookIds d) := by
  unfold DistinctBookIds; infer_instance

instance (d : Document) : Decidable (LedgerTracksBooks d) := by
  unfold LedgerTracksBooks; infer_instance

instance (d : Document) : Decidable (LendingInv d) := by
  unfold LendingInv; infer_instance

/-- How many open borrows the catalog allows for `bookId`: one when the book
the id resolves to is unavailable, none otherwise. -/
def heldSlot (d : Document) (bookId : String) : Nat :=
  match resolveBook d bookId with
  | some b => if b.available then 0 else 1
  | none => 0

/-- The open borrows of every book id fit the slot of the book it resolves to. -/
def SlotInv (d : Document) : Prop :=
  ∀ bookId, activeCount d bookId ≤ heldSlot d bookId

/-! ## The borrowed-books query as the specification words it -/

/-- The category filter of the query holds for `r`, or is not supplied (missing or empty). -/
def categoryOk (q : BorrowedQuery) (r : BorrowRecord) : Bool :=
  match q.category with
  | some category => if category != "" then r.category == category else true
  | none => true

/-- The borrowerName filter holds for `r` (case-insensitive substring), or is not supplied. -/
def borrowerNameOk (E : Env) (q : BorrowedQuery) (r : BorrowRecord) : Bool :=
  match q.borrowerName with
  | some borrowerName =>
    if borrowerName != "" then
      includes (E.toLowerCase r.borrowerName) (E.toLowerCase borrowerName)
    else true
  | none => true

/-- The dueDate filter holds for `r` (same calendar day), or is not supplied. -/
def dueDateOk (E : Env) (q : BorrowedQuery) (r : BorrowRecord) : Bool :=
  match q.dueDate with
  | some dueDate =>
    if dueDate != "" then
      isSame ((E.moment r.dueDate).map E.startOfDay) ((E.moment dueDate).map E.startOfDay)
    else true
  | none => true

/-- The overdue filter holds for `r` (not returned and due before the start of the current
day), or is not switched on (`overdue` is not the string `true`). -/
def overdueOk (E : Env) (q : BorrowedQuery) (nowMs : Int) (r : BorrowRecord) : Bool :=
  if q.overdue == some "true" then
    !r.returned && isBefore (E.moment r.dueDate) (some (E.startOfDay nowMs))
  else true

/-- The query as the specification words it: the ledger restricted to the records of
`userId` that satisfy every supplied filter. -/
def specQueryBorrowed (E : Env) (data : Document) (userId : String) (q : BorrowedQuery)
    (nowMs : Int) : List BorrowRecord :=
  data.borrowedBooks.filter (fun r =>
    r.borrowedBy == userId && (categoryOk q r && (borrowerNameOk E q r &&
      (dueDateOk E q r && overdueOk E q nowMs r))))

/-- The predicates of the filters that are supplied, in the order the handler applies
them. -/
def suppliedFilters (E : Env) (q : BorrowedQuery) (nowMs : Int) : List (BorrowRecord → Bool) :=
  (match q.category with
    | some category => if category != "" then [fun r => r.category == category] else []
    | none => []) ++
  (match q.borrowerName with
    | some borrowerName =>
      if borrowerName != "" then
        [fun r => includes (E.toLowerCase r.borrowerName) (E.toLowerCase borrowerName)]
      else []
    | none => []) ++
  (match q.dueDate with
    | some dueDate =>
      if dueDate != "" then
        [fun r => isSame ((E.moment r.dueDate).map E.startOfDay)
          ((E.moment dueDate).map E.startOfDay)]
      else []
    | none => []) ++
  (if q.overdue == some "true" then
    [fun r => !r.returned && isBefore (E.moment r.dueDate) (some (E.startOfDay nowMs))]
   else [])

/-- Apply filter predicates one after the other. -/
def applyFilters (ps : List (BorrowRecord → Bool)) (l : List BorrowRecord) :
    List BorrowRecord :=
  ps.foldl (fun acc p => acc.filter p) l

/-! ## Sample data -/

/-- Sample book with id `b1`. -/
def sampleBook : Book :=
  { id := "b1", title := "Dune", author := "Frank Herbert", category := "Fiction",
    available := true }

/-- Sample catalog of the repository's test script shape: one user, one
available book, empty ledger. -/
def sampleDoc : Document :=
  { users := [{ id := "1", username := "testuser", password := "hash", name := "Test User" }],
    books := [sampleBook], borrowedBooks := [] }

/-- Sample open record for book `b1` with the given record id. -/
def sampleRecord (id : String) : BorrowRecord :=
  { id := id, bookId := "b1", bookTitle := "Dune", bookAuthor := "Frank Herbert",
    category := "Fiction", borrowerName := "Alice", borrowedBy := "1",
    borrowedDate := "2024-01-01T09:00:00.000Z", dueDate := "2024-01-10", returned := false,
    returnDate := none }

/-- An available book referenced by two open records. -/
def heldTwiceDoc : Document :=
  { users := [], books := [sampleBook], borrowedBooks := [sampleRecord "r1", sampleRecord "r2"] }

/-- Two available books sharing the id `b1` (what two `POST /api/books` served
in the same millisecond leave), empty ledger. -/
def twinIdsDoc : Document :=
  { users := [], books := [sampleBook, { sampleBook with title := "Emma" }],
    borrowedBooks := [] }

/-- The sample book lent out under record `r1`. -/
def heldDoc : Document :=
  { users := [], books := [{ sampleBook with available := false }],
    borrowedBooks := [sampleRecord "r1"] }

/-- The sample book back on the shelf, record `r1` returned. -/
def returnedDoc : Document :=
  { users := [], books := [sampleBook],
    borrowedBooks := [{ sampleRecord "r1" with
      returned := true, returnDate := some "2024-01-02T09:00:00.000Z" }] }

/-- The sample book lent out under a record whose id is the empty string. -/
def blankIdDoc (returned : Bool) : Document :=
  { users := [], books := [{ sampleBook with available := false }],
    borrowedBooks := [{ sampleRecord "" with returned := returned }] }

/-- Two unavailable books sharing the id `b1`, one open record `r1` for that id. -/
def twinHeldDoc : Document :=
  { users := [],
    books := [{ sampleBook with available := false },
              { sampleBook with title := "Emma", available := false }],
    borrowedBooks := [sampleRecord "r1"] }

/-- Two users lending: record `r1` of user `1` and record `r2` of user `2`. -/
def mixedDoc : Document :=
  { users := [], books := [{ sampleBook with available := false }],
    borrowedBooks := [sampleRecord "r1", { sampleRecord "r2" with borrowedBy := "2" }] }

/-- A well-formed borrow request for book `b1`. -/
def sampleBorrow : BorrowRequest :=
  { bookId := some "b1", borrowerName := some "Alice", dueDate := some "2024-01-10" }

/-- A borrow, a second borrow attempt, the return of the first and a new borrow. -/
def sampleCalls : List Call :=
  [ .borrow sampleBorrow "1" 7 "2024-01-01T09:00:00.000Z" true,
    .borrow sampleBorrow "1" 8 "2024-01-01T09:00:01.000Z" true,
    .giveBack (some "7") "2024-01-02T09:00:00.000Z" true,
    .borrow sampleBorrow "1" 9 "2024-01-03T09:00:00.000Z" false,
    .borrow sampleBorrow "1" 10 "2024-01-03T09:00:01.000Z" true ]

/-- A query with every filter supplied. -/
def sampleQuery : BorrowedQuery :=
  { category := some "Fiction", borrowerName := some "ali", dueDate := some "2024-01-10",
    overdue := some "true" }

/-- Decimal value of a non-empty string of digits. -/
def parseDigits (cs : List Char) : Option Nat :=
  if cs.isEmpty then none
  else cs.foldl (fun acc c =>
    acc.bind (fun n => if c.isDigit then some (n * 10 + (c.toNat - 48)) else none)) (some 0)

/-- Gregorian leap year. -/
def isLeapYear (y : Nat) : Bool :=
  (y % 4 == 0 && y % 100 != 0) || y % 400 == 0

/-- Number of days of month `m` (1 to 12) of year `y`. -/
def daysInMonth (y m : Nat) : Nat :=
  if m == 2 then (if isLeapYear y then 29 else 28)
  else if m == 4 || m == 6 || m == 9 || m == 11 then 30
  else 31

/-- Days from 1970-01-01 to the Gregorian date `y`-`m`-`d`. -/
def daysFromCivil (y m d : Nat) : Int :=
  let y1 : Int := if m ≤ 2 then (y : Int) - 1 else (y : Int)
  let era : Int := y1 / 400
  let yoe : Int := y1 - era * 400
  let mp : Int := ((m : Int) + 9) % 12
  let doy : Int := (153 * mp + 2) / 5 + (d : Int) - 1
  let doe : Int := yoe * 365 + yoe / 4 - yoe / 100 + doy
  era * 146097 + doe - 719468

/-- The instant (milliseconds since the epoch, UTC) at which the calendar date written
`YYYY-MM-DD` starts; `none` when the string has another form or names no date. -/
def parseIsoDate (s : String) : Option Int :=
  match s.data with
  | [y1, y2, y3, y4, '-', m1, m2, '-', d1, d2] =>
    match parseDigits [y1, y2, y3, y4], parseDigits [m1, m2], parseDigits [d1, d2] with
    | some y, some m, some d =>
      if 1 ≤ m ∧ m ≤ 12 ∧ 1 ≤ d ∧ d ≤ daysInMonth y m then
        some (daysFromCivil y m d * 86400000)
      else none
    | _, _, _ => none
  | _ => none

/-- An environment for examples, agreeing with the libraries on the inputs the examples
use, for a server whose time zone is UTC.
* `toLowerCase` lower-cases the ASCII letters.
* `moment` reads a calendar date written `YYYY-MM-DD` as the midnight that starts it and
  takes every other string as invalid (the library accepts further formats, none of which
  the examples use).
* `startOfDay` is the UTC midnight at or before the instant. -/
def sampleEnv : Env :=
  { toLowerCase := fun s => String.mk (s.data.map Char.toLower),
    moment := parseIsoDate,
    startOfDay := fun t => t / 86400000 * 86400000 }

/-! ## Further properties stated by the specification -/

/-- The record ids of the ledger are pairwise distinct. -/
def DistinctRecordIds (d : Document) : Prop :=
  (d.borrowedBooks.map (fun r => r.id)).Nodup

/-- The user ids are pairwise distinct. -/
def DistinctUserIds (d : Document) : Prop :=
  (d.users.map (fun u => u.id)).Nodup

/-- The usernames are pairwise distinct. -/
def DistinctUsernames (d : Document) : Prop :=
  (d.users.map (fun u => u.username)).Nodup

/-- Every ledger entry has a `returnDate` exactly when it is returned. -/
def ReturnDateMatches (d : Document) : Prop :=
  ∀ r ∈ d.borrowedBooks, (r.returnDate ≠ none ↔ r.returned = true)

instance (d : Document) : Decidable (DistinctRecordIds d) := by
  unfold DistinctRecordIds; infer_instance

instance (d : Document) : Decidable (DistinctUserIds d) := by
  unfold DistinctUserIds; infer_instance

instance (d : Document) : Decidable (DistinctUsernames d) := by
  unfold DistinctUsernames; infer_instance

instance (d : Document) : Decidable (ReturnDateMatches d) := by
  unfold ReturnDateMatches; infer_instance

/-- The query `?overdue=true` with no other filter. -/
def overdueQuery : BorrowedQuery :=
  { category := none, borrowerName := none, dueDate := none, overdue := some "true" }

/-! ## Further sample data -/

/-- Two available books `b1` and `b2`, empty ledger. -/
def twoBooksDoc : Document :=
  { users := [], books := [sampleBook, { sampleBook with id := "b2", title := "Emma" }],
    borrowedBooks := [] }

/-- Two borrows served in the same millisecond (clock value 7), one per book, both due on
2022-01-08. -/
def sameMsBorrows : List Call :=
  [ .borrow ⟨some "b1", some "Alice", some "2022-01-08"⟩ "1" 7 "2022-01-01T09:00:00.000Z" true,
    .borrow ⟨some "b2", some "Alice", some "2022-01-08"⟩ "1" 7 "2022-01-01T09:00:00.000Z" true ]

/-- The record the second of the same-millisecond borrows creates. -/
def secondSameMsRecord : BorrowRecord :=
  { id := "7", bookId := "b2", bookTitle := "Emma", bookAuthor := "Frank Herbert",
    category := "Fiction", borrowerName := "Alice", borrowedBy := "1",
    borrowedDate := "2022-01-01T09:00:00.000Z", dueDate := "2022-01-08", returned := false,
    returnDate := none }

/-- The sample book lent out under record `r1`, due on 2022-01-08. -/
def overdueDoc : Document :=
  { users := [], books := [{ sampleBook with available := false }],
    borrowedBooks := [{ sampleRecord "r1" with dueDate := "2022-01-08" }] }

/-- Yet another registration request for the username `alice`. -/
def aliceRequest : RegisterRequest :=
  { username := some "alice", password := some "secret", name := some "Alice" }

/-- A run that registers `alice` twice and `bob` once between lending calls. -/
def mixedCalls : List Call :=
  .register aliceRequest "hash1" 3 true ::
  .register aliceRequest "hash2" 4 true ::
  .register ⟨some "bob", some "pw", some "Bob"⟩ "hash3" 5 true ::
  .addBook ⟨some "Emma", some "Jane Austen", some "Fiction"⟩ 6 true :: sampleCalls

/-- The value `Date.now()` returned while the call was served, for the calls that read it. -/
def Call.clock : Call → Option Nat
  | .register _ _ nowMs _ => some nowMs
  | .addBook _ nowMs _ => some nowMs
  | .borrow _ _ nowMs _ _ => some nowMs
  | .giveBack _ _ _ => none

/-- Each number of the list is at most the next one. -/
def nonDecreasing : List Nat → Bool
  | [] => true
  | [_] => true
  | a :: b :: rest => decide (a ≤ b) && nonDecreasing (b :: rest)

/-- The clock values read by the calls of a sequence never decrease. -/
def ClockNonDecreasing (cs : List Call) : Prop :=
  nonDecreasing (cs.filterMap Call.clock) = true

instance (cs : List Call) : Decidable (ClockNonDecreasing cs) := by
  unfold ClockNonDecreasing; infer_instance

/-- Calls on the empty document in which consecutive requests are served within the same
millisecond: two registrations at 5, two catalog insertions at 6, one at 7, two borrows
at 8. -/
def collidingCalls : List Call :=
  [ .register aliceRequest "hash1" 5 true,
    .register ⟨some "bob", some "pw", some "Bob"⟩ "hash2" 5 true,
    .addBook ⟨some "Dune", some "Frank Herbert", some "Fiction"⟩ 6 true,
    .addBook ⟨some "Emma", some "Jane Austen", some "Fiction"⟩ 6 true,
    .addBook ⟨some "Ulysses", some "James Joyce", some "Fiction"⟩ 7 true,
    .borrow ⟨some "6", some "Alice", some "2024-01-10"⟩ "5" 8 "2024-01-01T09:00:00.000Z" true,
    .borrow ⟨some "7", some "Alice", some "2024-01-10"⟩ "5" 8 "2024-01-01T09:00:00.000Z" true ]

/-! ## Read-only handlers

Handlers that never call `writeData`; in the shape of the writing handlers their second
component is always `none`. -/

/-- Credential and token libraries used by `POST /api/login`.
* `compare plain hash` is `bcrypt.compare(plain, hash)`.
* `sign id username name` is the token `jwt.sign` issues for that payload. -/
structure Auth where
  compare : String → String → Bool
  sign : String → String → String → String

/-- Body of `POST /api/login`. -/
structure LoginRequest where
  username : Option String
  password : Option String
deriving DecidableEq, Repr

/-- Handler of `POST /api/login`. -/
def login (A : Auth) (data : Document) (req : LoginRequest) : Response × Option Document :=
  if !truthy req.username || !truthy req.password then
    (⟨400, .message "Username and password are required"⟩, none)
  else
    match req.username, req.password with
    | some username, some password =>
      match data.users.find? (fun u => u.username == username) with
      | none => (⟨401, .message "Invalid credentials"⟩, none)
      | some user =>
        if !A.compare password user.password then
          (⟨401, .message "Invalid credentials"⟩, none)
        else
          (⟨200, .session (A.sign user.id user.username user.name) user.id user.username
              user.name⟩, none)
    | _, _ => (serverError, none)

/-- Handler of `GET /api/books`: `res.json(data.books)`.  The argument `category` is the
`category` entry of the query string; the handler does not read the query. -/
def listBooks (data : Document) (_category : Option String) : Response × Option Document :=
  (⟨200, .books data.books⟩, none)

/-- JavaScript `[...new Set(xs)]`: the values in the order they were first added. -/
def uniqueValues (xs : List String) : List String :=
  xs.foldl (fun seen x => if seen.contains x then seen else seen ++ [x]) []

/-- Handler of `GET /api/categories`. -/
def listCategories (data : Document) : Response × Option Document :=
  (⟨200, .categories (uniqueValues (data.books.map (fun book => book.category)))⟩, none)

/-- Handler of `GET /api/borrowed` in the shape of the other handlers. -/
def listBorrowed (E : Env) (data : Document) (userId : String) (q : BorrowedQuery)
    (nowMs : Int) : Response × Option Document :=
  (⟨200, .records (queryBorrowed E data userId q nowMs)⟩, none)

/-- Route `POST /api/login`. -/
def postLogin (A : Auth) (s : Store) (req : LoginRequest) (writeOk : Bool) :
    Response × Store :=
  commit s (login A (readData s) req) writeOk

/-- Route `GET /api/books`. -/
def getBooks (s : Store) (category : Option String) (writeOk : Bool) : Response × Store :=
  commit s (listBooks (readData s) category) writeOk

/-- Route `GET /api/categories`. -/
def getCategories (s : Store) (writeOk : Bool) : Response × Store :=
  commit s (listCategories (readData s)) writeOk

/-- Route `GET /api/borrowed` with the store it leaves. -/
def getBorrowedStore (E : Env) (s : Store) (userId : String) (q : BorrowedQuery)
    (nowMs : Int) (writeOk : Bool) : Response × Store :=
  commit s (listBorrowed E (readData s) userId q nowMs) writeOk

/-! ## Catalog listings as the specification words them -/

/-- The list with every later repeat of a value removed. -/
def firstOccurrences : List String → List String
  | [] => []
  | a :: as => a :: (firstOccurrences as).filter (fun x => x != a)

/-- Listing with an optional category filter, as the specification words it: the books
whose category equals the filter, in catalog order; every book when no filter is given. -/
def specListBooks (data : Document) (category : Option String) : List Book :=
  match category with
  | some c => data.books.filter (fun book => book.category == c)
  | none => data.books

/-- A catalog with a fiction book and a science book. -/
def twoCategoriesDoc : Document :=
  { users := [],
    books := [sampleBook,
              { id := "b2", title := "Cosmos", author := "Carl Sagan", category := "Science",
                available := true }],
    borrowedBooks := [] }

/-! ## The backing file as JSON

The helper `readData` on the raw file: `fs.readJson` either throws (file missing, unreadable
or not JSON) or returns the parsed value, whatever its shape. -/

/-- A parsed JSON value. -/
inductive Json where
  | null
  | bool (b : Bool)
  | num (n : Int)
  | str (s : String)
  | arr (items : List Json)
  | obj (fields : List (String × Json))

/-- The state of the file `data/events.json`. -/
inductive BackingFile where
  | missing
  | corrupt
  | json (value : Json)

/-- JSON image of a user. -/
def encodeUser (u : User) : Json :=
  .obj [("id", .str u.id), ("username", .str u.username), ("password", .str u.password),
        ("name", .str u.name)]

/-- JSON image of a book. -/
def encodeBook (b : Book) : Json :=
  .obj [("id", .str b.id), ("title", .str b.title), ("author", .str b.author),
        ("category", .str b.category), ("available", .bool b.available)]

/-- JSON image of a borrow record; `returnDate` is written only when present. -/
def encodeRecord (r : BorrowRecord) : Json :=
  .obj ([("id", .str r.id), ("bookId", .str r.bookId), ("bookTitle", .str r.bookTitle),
         ("bookAuthor", .str r.bookAuthor), ("category", .str r.category),
         ("borrowerName", .str r.borrowerName), ("borrowedBy", .str r.borrowedBy),
         ("borrowedDate", .str r.borrowedDate), ("dueDate", .str r.dueDate),
         ("returned", .bool r.returned)] ++
        (match r.returnDate with
          | some date => [("returnDate", .str date)]
          | none => []))

/-- JSON image of a document: what `fs.writeJson` writes for it. -/
def encodeDocument (d : Document) : Json :=
  .obj [("users", .arr (d.users.map encodeUser)), ("books", .arr (d.books.map encodeBook)),
        ("borrowedBooks", .arr (d.borrowedBooks.map encodeRecord))]

/-- The file that holds a store: absent for `none`, the image of the document otherwise. -/
def fileOf : Store → BackingFile
  | none => .missing
  | some d => .json (encodeDocument d)

/-- Library call `fs.readJson(DATA_FILE)`: the parsed value, `none` when it throws. -/
def readJson : BackingFile → Option Json
  | .missing => none
  | .corrupt => none
  | .json value => some value

/-- Helper `readData` on the raw file: the parsed value as it is, or
`{ users: [], books: [], borrowedBooks: [] }` when `fs.readJson` throws. -/
def readDataJson (f : BackingFile) : Json :=
  match readJson f with
  | some data => data
  | none => .obj [("users", .arr []), ("books", .arr []), ("borrowedBooks", .arr [])]

/-- Property `value[key]` of a JSON object; `none` is `undefined`. -/
def Json.field (key : String) : Json → Option Json
  | .obj fields => (fields.find? (fun kv => kv.1 == key)).map (fun kv => kv.2)
  | _ => none

/-- The value is an array (`Array.isArray`). -/
def Json.isArray : Option Json → Bool
  | some (.arr _) => true
  | _ => false

/-- The value has the three collections of a Document, each a list. -/
def hasCollections (v : Json) : Bool :=
  Json.isArray (v.field "users") && Json.isArray (v.field "books") &&
    Json.isArray (v.field "borrowedBooks")

/-! ## Two borrow calls in flight

A `POST /api/borrow` handler gives up control at `await readData()` and at
`await writeData(data)`.  A call in flight therefore takes two steps: it loads the document,
and later it runs the rest of the handler on the document it loaded and saves. -/

/-- The inputs of one `POST /api/borrow` call. -/
structure BorrowCall where
  req : BorrowRequest
  userId : String
  nowMs : Nat
  nowIso : String
  writeOk : Bool
deriving DecidableEq, Repr

/-- Where a call in flight stands: not started, holding the document it loaded, or
answered. -/
inductive Phase where
  | waiting
  | loaded (data : Document)
  | done (res : Response)
deriving DecidableEq, Repr

/-- One step of a call in flight against the current store. -/
def stepCall (s : Store) (c : BorrowCall) : Phase → Store × Phase
  | .waiting => (s, .loaded (readData s))
  | .loaded data =>
    ((commit s (borrow data c.req c.userId c.nowMs c.nowIso) c.writeOk).2,
      .done (borrow data c.req c.userId c.nowMs c.nowIso).1)
  | .done res => (s, .done res)

/-- Run two calls under a schedule: `false` lets the first call take its next step, `true`
the second. -/
def runRace (c1 c2 : BorrowCall) : Store × Phase × Phase → List Bool → Store × Phase × Phase
  | state, [] => state
  | (s, p1, p2), false :: rest =>
    runRace c1 c2 ((stepCall s c1 p1).1, (stepCall s c1 p1).2, p2) rest
  | (s, p1, p2), true :: rest =>
    runRace c1 c2 ((stepCall s c2 p2).1, p1, (stepCall s c2 p2).2) rest

/-- The schedules of two calls in which both load before either saves. -/
def bothLoadFirst : List (List Bool) :=
  [[false, true, false, true], [false, true, true, false],
   [true, false, false, true], [true, false, true, false]]

/-- The record a borrow call creates for `book`. -/
def recordFor (book : Book) (bookId borrowerName dueDate userId : String) (nowMs : Nat)
    (nowIso : String) : BorrowRecord :=
  { id := toString nowMs, bookId := bookId, bookTitle := book.title,
    bookAuthor := book.author, category := book.category, borrowerName := borrowerName,
    borrowedBy := userId, borrowedDate := nowIso, dueDate := dueDate, returned := false,
    returnDate := none }

/-- The record as `POST /api/return` leaves it. -/
def markReturned (r : BorrowRecord) (nowIso : String) : BorrowRecord :=
  { r with returned := true, returnDate := some nowIso }

/-- The status a call in flight has answered with, if it has answered. -/
def Phase.status : Phase → Option Nat
  | .done res => some res.status
  | _ => none

/-- The two racing borrow calls of the examples: Alice and Bob, both for book `b1`. -/
def aliceCall : BorrowCall :=
  ⟨⟨some "b1", some "Alice", some "2024-01-10"⟩, "1", 7, "2024-01-01T09:00:00.000Z", true⟩

/-- The second racing call. -/
def bobCall : BorrowCall :=
  ⟨⟨some "b1", some "Bob", some "2024-02-01"⟩, "2", 8, "2024-01-01T09:00:00.001Z", true⟩

/-- What a race on the sample document ends with under a schedule: the two statuses, the
length of the final ledger and the number of open records for book `b1`. -/
def raceSummary (sched : List Bool) : Option Nat × Option Nat × Nat × Nat :=
  ((runRace aliceCall bobCall (some sampleDoc, .waiting, .waiting) sched).2.1.status,
   (runRace aliceCall bobCall (some sampleDoc, .waiting, .waiting) sched).2.2.status,
   (readData (runRace aliceCall bobCall (some sampleDoc, .waiting, .waiting)
      sched).1).borrowedBooks.length,
   activeCount (readData (runRace aliceCall bobCall (some sampleDoc, .waiting, .waiting)
      sched).1) "b1")

/-- The sample book lent out under record `r1`, due on 2024-01-11. -/
def dueTodayDoc : Document :=
  { users := [], books := [{ sampleBook with available := false }],
    borrowedBooks := [{ sampleRecord "r1" with dueDate := "2024-01-11" }] }

/-! ## Lemmas on the JavaScript helpers -/

theorem findIndex_eq_some {α : Type} {p : α → Bool} :
    ∀ {l : List α} {i : Nat}, findIndex p l = some i →
      ∃ pre x post, l = pre ++ x :: post ∧ pre.length = i ∧ p x = true ∧
        ∀ y ∈ pre, p y = false
  | [], _, h => by simp [findIndex] at h
  | a :: as, i, h => by
    by_cases hp : p a = true
    · simp [findIndex, hp] at h
      exact ⟨[], a, as, by simp, by simpa using h, hp, by simp⟩
    · simp [findIndex, hp] at h
      obtain ⟨j, hj, rfl⟩ := h
      obtain ⟨pre, x, post, hl, hlen, hx, hpre⟩ := findIndex_eq_some hj
      refine ⟨a :: pre, x, post, by simp [hl], by simp [hlen], hx, ?_⟩
      intro y hy
      rcases List.mem_cons.mp hy with rfl | hy
      · simpa using hp
      · exact hpre y hy

theorem findIndex_eq_none {α : Type} {p : α → Bool} :
    ∀ {l : List α}, findIndex p l = none → ∀ y ∈ l, p y = false
  | [], _ => by simp
  | a :: as, h => by
    by_cases hp : p a = true
    · simp [findIndex, hp] at h
    · simp [findIndex, hp] at h
      intro y hy
      rcases List.mem_cons.mp hy with rfl | hy
      · simpa using hp
      · exact findIndex_eq_none h y hy

theorem findIndex_append_cons {α : Type} {p : α → Bool} :
    ∀ (pre : List α) (x : α) (post : List α), p x = true → (∀ y ∈ pre, p y = false) →
      findIndex p (pre ++ x :: post) = some pre.length
  | [], x, post, hx, _ => by simp [findIndex, hx]
  | a :: pre, x, post, hx, hpre => by
    have ha : p a = false := hpre a (by simp)
    have ih := findIndex_append_cons pre x post hx (fun y hy => hpre y (by simp [hy]))
    simp [findIndex, ha, ih]

theorem findIndex_of_forall_false {α : Type} {p : α → Bool} :
    ∀ (l : List α), (∀ y ∈ l, p y = false) → findIndex p l = none
  | [], _ => rfl
  | a :: as, h => by
    have ha : p a = false := h a (by simp)
    have ih := findIndex_of_forall_false as (fun y hy => h y (by simp [hy]))
    simp [findIndex, ha, ih]

theorem getElem?_append_cons_length {α : Type} :
    ∀ (pre : List α) (x : α) (post : List α), (pre ++ x :: post)[pre.length]? = some x
  | [], x, post => by simp
  | a :: pre, x, post => by
    simpa using getElem?_append_cons_length pre x post

theorem modify_append_cons_length {α : Type} (f : α → α) :
    ∀ (pre : List α) (x : α) (post : List α),
      (pre ++ x :: post).modify f pre.length = pre ++ f x :: post
  | [], x, post => by simp
  | a :: pre, x, post => by
    simpa using modify_append_cons_length f pre x post

theorem find?_append_cons_first {α : Type} {p : α → Bool} (pre : List α) (x : α)
    (post : List α) (hx : p x = true) (hpre : ∀ y ∈ pre, p y = false) :
    (pre ++ x :: post).find? p = some x := by
  have : pre.find? p = none := by
    simpa using hpre
  simp [List.find?_append, this, hx]

/-! ## What each handler hands to `writeData` -/

/-- Every document `borrow` saves: the first book with the requested id was
available and is flipped, and one non-returned record for it is appended. -/
theorem borrow_saved {data : Document} {req : BorrowRequest} {userId : String} {nowMs : Nat}
    {nowIso : String} {res : Response} {d : Document}
    (h : borrow data req userId nowMs nowIso = (res, some d)) :
    ∃ pre book post record,
      data.books = pre ++ book :: post ∧ (∀ y ∈ pre, (y.id == record.bookId) = false) ∧
      book.id = record.bookId ∧ book.available = true ∧ record.returned = false ∧
      d = { data with books := pre ++ { book with available := false } :: post,
                      borrowedBooks := data.borrowedBooks ++ [record] } := by
  unfold borrow at h
  split at h
  · simp at h
  · split at h
    · rename_i bookId borrowerName dueDate _ _ _
      split at h
      · simp at h
      · rename_i bookIndex hidx
        obtain ⟨pre, book, post, hbooks, hlen, hbook, hpre⟩ := findIndex_eq_some hidx
        subst hlen
        rw [hbooks, getElem?_append_cons_length] at h
        simp only at h
        split at h
        · simp at h
        · rename_i hav
          rw [modify_append_cons_length] at h
          simp only [Prod.mk.injEq, Option.some.injEq] at h
          refine ⟨pre, book, post, _, hbooks, ?_, ?_, ?_, rfl, h.2.symm⟩
          · simpa using hpre
          · simpa using hbook
          · simpa using hav
    · simp at h

/-- Every document `giveBack` saves: the first record with the requested id was
not returned and is marked returned, and the first book with the record's
`bookId`, if any, is made available. -/
theorem giveBack_saved {data : Document} {borrowId : Option String} {nowIso : String}
    {res : Response} {d : Document} (h : giveBack data borrowId nowIso = (res, some d)) :
    ∃ rpre record rpost,
      data.borrowedBooks = rpre ++ record :: rpost ∧ record.returned = false ∧
      ((findIndex (fun book => book.id == record.bookId) data.books = none ∧
          d = { data with borrowedBooks :=
                  rpre ++ { record with returned := true, returnDate := some nowIso } :: rpost })
        ∨ ∃ pre book post,
            data.books = pre ++ book :: post ∧ (∀ y ∈ pre, (y.id == record.bookId) = false) ∧
            book.id = record.bookId ∧
            d = { data with
                  books := pre ++ { book with available := true } :: post,
                  borrowedBooks :=
                    rpre ++ { record with returned := true, returnDate := some nowIso } ::
                      rpost }) := by
  unfold giveBack at h
  split at h
  · simp at h
  · split at h
    · rename_i borrowId'
      split at h
      · simp at h
      · rename_i borrowIndex hidx
        obtain ⟨rpre, record, rpost, hledger, hlen, _, _⟩ := findIndex_eq_some hidx
        subst hlen
        rw [hledger, getElem?_append_cons_length] at h
        simp only at h
        split at h
        · simp at h
        · rename_i hret
          rw [modify_append_cons_length] at h
          simp only [Prod.mk.injEq, Option.some.injEq] at h
          refine ⟨rpre, record, rpost, hledger, by simpa using hret, ?_⟩
          cases hfind : findIndex (fun book => book.id == record.bookId) data.books with
          | none =>
            left
            refine ⟨rfl, ?_⟩
            rw [hfind] at h
            rw [← h.2]
          | some bookIndex =>
            right
            obtain ⟨pre, book, post, hbooks, hlen, hbook, hpre⟩ := findIndex_eq_some hfind
            subst hlen
            rw [hfind] at h
            simp only at h
            rw [hbooks, modify_append_cons_length] at h
            refine ⟨pre, book, post, hbooks, hpre, by simpa using hbook, ?_⟩
            rw [← h.2]
    · simp at h

/-- The only document `addBook` saves is the loaded one with one available
book appended. -/
theorem addBook_saved {data : Document} {req : AddBookRequest} {nowMs : Nat} {res : Response}
    {d : Document} (h : addBook data req nowMs = (res, some d)) :
    ∃ book, book.available = true ∧ d = { data with books := data.books ++ [book] } := by
  unfold addBook at h
  split at h
  · simp at h
  · split at h
    · simp only [Prod.mk.injEq, Option.some.injEq] at h
      exact ⟨_, rfl, h.2.symm⟩
    · simp at h

/-- The only document `registerUser` saves is the loaded one with one user appended. -/
theorem registerUser_saved {data : Document} {req : RegisterRequest} {hashed : String}
    {nowMs : Nat} {res : Response} {d : Document}
    (h : registerUser data req hashed nowMs = (res, some d)) :
    ∃ user, d = { data with users := data.users ++ [user] } := by
  unfold registerUser at h
  split at h
  · simp at h
  · split at h
    · split at h
      · simp at h
      · simp only [Prod.mk.injEq, Option.some.injEq] at h
        exact ⟨_, h.2.symm⟩
    · simp at h

/-! ## Counting non-returned entries -/

theorem activeCount_push (data : Document) (books : List Book) (record : BorrowRecord)
    (hret : record.returned = false) (x : String) :
    activeCount { data with books := books,
                            borrowedBooks := data.borrowedBooks ++ [record] } x
      = activeCount data x + if record.bookId = x then 1 else 0 := by
  by_cases hx : record.bookId = x <;>
    simp [activeCount, List.countP_append, List.countP_cons, hret, hx]

theorem activeCount_mark_returned (data : Document) (books : List Book)
    (rpre : List BorrowRecord) (record : BorrowRecord) (rpost : List BorrowRecord)
    (nowIso : String) (hledger : data.borrowedBooks = rpre ++ record :: rpost)
    (hret : record.returned = false) (x : String) :
    activeCount data x
      = activeCount { data with
            books := books,
            borrowedBooks :=
              rpre ++ { record with returned := true, returnDate := some nowIso } :: rpost } x
        + if record.bookId = x then 1 else 0 := by
  by_cases hx : record.bookId = x <;>
    simp [activeCount, hledger, List.countP_append, List.countP_cons, hret, hx]
  omega

/-- Distinct ids: a book standing before or after `book` has another id. -/
theorem id_ne_of_nodup {pre : List Book} {book : Book} {post : List Book}
    (h : ((pre ++ book :: post).map (fun b => b.id)).Nodup) {b : Book}
    (hb : b ∈ pre ∨ b ∈ post) : b.id ≠ book.id := by
  rw [List.map_append, List.map_cons] at h
  have h2 := (List.nodup_middle.mp h)
  rw [List.nodup_cons] at h2
  intro heq
  apply h2.1
  rw [← heq, ← List.map_append]
  exact List.mem_map.mpr ⟨b, by simpa using hb, rfl⟩

/-! ## Stores reached by serialized calls -/

theorem commit_store (s : Store) (r : Response × Option Document) (writeOk : Bool) :
    (commit s r writeOk).2 = s ∨ ∃ d, r.2 = some d ∧ (commit s r writeOk).2 = some d := by
  unfold commit
  cases hr : r.2 with
  | none => left; rfl
  | some d =>
    cases writeOk
    · left; simp [writeData]
    · right; exact ⟨d, rfl, by simp [writeData]⟩

/-- A property of the loaded document that every call of a sequence preserves
holds after the whole sequence. -/
theorem serveAll_preserves (P : Document → Prop) :
    ∀ (cs : List Call) (s : Store),
      (∀ c ∈ cs, ∀ s0 : Store, P (readData s0) → P (readData (serve s0 c).2)) →
      P (readData s) → P (readData (serveAll s cs))
  | [], _, _, h => h
  | c :: cs, s, hstep, h =>
    serveAll_preserves P cs (serve s c).2
      (fun c1 hc1 => hstep c1 (List.mem_cons_of_mem _ hc1))
      (hstep c (List.mem_cons_self _ _) s h)

/-! ## The availability invariant (distinct book ids) -/

theorem availabilityMatchesLedger_of_tracks {d : Document} (h : LedgerTracksBooks d) :
    AvailabilityMatchesLedger d := by
  intro b hb
  have := h b hb
  cases hav : b.available <;> simp [hav] at this ⊢ <;> omega

theorem lendingInv_borrow {data : Document} {req : BorrowRequest} {userId : String}
    {nowMs : Nat} {nowIso : String} {res : Response} {d : Document}
    (h : borrow data req userId nowMs nowIso = (res, some d)) (hinv : LendingInv data) :
    LendingInv d := by
  obtain ⟨pre, book, post, record, hbooks, _, hid, hav, hret, rfl⟩ := borrow_saved h
  obtain ⟨hnodup, htrack⟩ := hinv
  have hnd : ((pre ++ book :: post).map (fun b => b.id)).Nodup := by
    have := hnodup
    unfold DistinctBookIds at this
    rwa [hbooks] at this
  refine ⟨?_, ?_⟩
  · unfold DistinctBookIds
    simpa using hnd
  · intro b hb
    have hcnt := activeCount_push data (pre ++ { book with available := false } :: post)
      record hret b.id
    have hother : ∀ b0 : Book, b0 ∈ pre ∨ b0 ∈ post →
        activeCount data b0.id + (if record.bookId = b0.id then 1 else 0)
          = if b0.available = true then 0 else 1 := by
      intro b0 hb0
      have hne : b0.id ≠ book.id := id_ne_of_nodup hnd hb0
      have hne2 : ¬ record.bookId = b0.id := by rw [← hid]; exact fun e => hne e.symm
      have hin : b0 ∈ data.books := by
        rw [hbooks]; rcases hb0 with hb0 | hb0 <;> simp [hb0]
      rw [if_neg hne2, Nat.add_zero]
      exact htrack b0 hin
    simp only [List.mem_append, List.mem_cons] at hb
    rw [hcnt]
    rcases hb with hb | rfl | hb
    · exact hother b (Or.inl hb)
    · have hbook := htrack book (by rw [hbooks]; simp)
      rw [if_pos hav] at hbook
      show activeCount data book.id + (if record.bookId = book.id then 1 else 0) = 1
      rw [if_pos hid.symm, hbook]
    · exact hother b (Or.inr hb)

theorem lendingInv_giveBack {data : Document} {borrowId : Option String} {nowIso : String}
    {res : Response} {d : Document} (h : giveBack data borrowId nowIso = (res, some d))
    (hinv : LendingInv data) : LendingInv d := by
  obtain ⟨rpre, record, rpost, hledger, hret, hcase⟩ := giveBack_saved h
  obtain ⟨hnodup, htrack⟩ := hinv
  rcases hcase with ⟨hnone, rfl⟩ | ⟨pre, book, post, hbooks, _, hid, rfl⟩
  · refine ⟨hnodup, ?_⟩
    intro b hb
    have hcount := activeCount_mark_returned data data.books rpre record rpost nowIso hledger
      hret b.id
    have hne : record.bookId ≠ b.id := by
      have := findIndex_eq_none hnone b hb
      intro e
      simp [e] at this
    rw [if_neg hne] at hcount
    have := htrack b hb
    rw [hcount] at this
    exact this
  · have hnd : ((pre ++ book :: post).map (fun b => b.id)).Nodup := by
      have := hnodup
      unfold DistinctBookIds at this
      rwa [hbooks] at this
    refine ⟨?_, ?_⟩
    · unfold DistinctBookIds
      simpa using hnd
    · intro b hb
      have hcount := activeCount_mark_returned data
        (pre ++ { book with available := true } :: post) rpre record rpost nowIso hledger hret
      have hother : ∀ b0 : Book, b0 ∈ pre ∨ b0 ∈ post →
          activeCount { data with
              books := pre ++ { book with available := true } :: post,
              borrowedBooks :=
                rpre ++ { record with returned := true, returnDate := some nowIso } :: rpost }
            b0.id = if b0.available = true then 0 else 1 := by
        intro b0 hb0
        have hne : b0.id ≠ book.id := id_ne_of_nodup hnd hb0
        have hne2 : ¬ record.bookId = b0.id := by rw [← hid]; exact fun e => hne e.symm
        have hin : b0 ∈ data.books := by
          rw [hbooks]; rcases hb0 with hb0 | hb0 <;> simp [hb0]
        have hc := hcount b0.id
        rw [if_neg hne2, Nat.add_zero] at hc
        rw [← hc]
        exact htrack b0 hin
      simp only [List.mem_append, List.mem_cons] at hb
      rcases hb with hb | rfl | hb
      · exact hother b (Or.inl hb)
      · have hbook := htrack book (by rw [hbooks]; simp)
        have hc := hcount book.id
        rw [if_pos hid.symm] at hc
        show activeCount _ book.id = 0
        cases hav : book.available
        · rw [hav] at hbook
          simp at hbook
          omega
        · rw [hav] at hbook
          simp at hbook
          omega
      · exact hother b (Or.inr hb)

theorem lendingInv_serve (c : Call) (hc : c.isLending = true) (s : Store)
    (hinv : LendingInv (readData s)) : LendingInv (readData (serve s c).2) := by
  cases c with
  | register _ _ _ _ => simp [Call.isLending] at hc
  | addBook _ _ _ => simp [Call.isLending] at hc
  | borrow req userId nowMs nowIso writeOk =>
    rcases commit_store s (borrow (readData s) req userId nowMs nowIso) writeOk with
      h | ⟨d, hd, h⟩
    · have hs : (serve s (.borrow req userId nowMs nowIso writeOk)).2 = s := h
      rw [hs]; exact hinv
    · have hs : (serve s (.borrow req userId nowMs nowIso writeOk)).2 = some d := h
      rw [hs]
      have hb : borrow (readData s) req userId nowMs nowIso
          = ((borrow (readData s) req userId nowMs nowIso).1, some d) := Prod.ext rfl hd
      exact lendingInv_borrow hb hinv
  | giveBack borrowId nowIso writeOk =>
    rcases commit_store s (giveBack (readData s) borrowId nowIso) writeOk with
      h | ⟨d, hd, h⟩
    · have hs : (serve s (.giveBack borrowId nowIso writeOk)).2 = s := h
      rw [hs]; exact hinv
    · have hs : (serve s (.giveBack borrowId nowIso writeOk)).2 = some d := h
      rw [hs]
      have hb : giveBack (readData s) borrowId nowIso
          = ((giveBack (readData s) borrowId nowIso).1, some d) := Prod.ext rfl hd
      exact lendingInv_giveBack hb hinv

theorem ledgerTracksBooks_of_fresh {d : Document} (hav : ∀ b ∈ d.books, b.available = true)
    (hledger : d.borrowedBooks = []) : LedgerTracksBooks d := by
  intro b hb
  simp [activeCount, hledger, hav b hb]

/-! ## At most one open borrow per book id (any catalog) -/

theorem heldSlot_le_one (d : Document) (x : String) : heldSlot d x ≤ 1 := by
  unfold heldSlot
  split
  · split <;> omega
  · omega

theorem resolveBook_flip_other {data : Document} {pre : List Book} {book : Book}
    {post : List Book} (hbooks : data.books = pre ++ book :: post) (users : List User)
    (ledger : List BorrowRecord) (v : Bool) {x : String} (hx : book.id ≠ x) :
    resolveBook { users := users, books := pre ++ { book with available := v } :: post,
                  borrowedBooks := ledger } x = resolveBook data x := by
  simp [resolveBook, hbooks, List.find?_append, List.find?_cons, hx]

theorem resolveBook_flip_same {pre : List Book} {book : Book} {post : List Book}
    (users : List User) (ledger : List BorrowRecord) (v : Bool)
    (hpre : ∀ y ∈ pre, (y.id == book.id) = false) :
    resolveBook { users := users, books := pre ++ { book with available := v } :: post,
                  borrowedBooks := ledger } book.id
      = some { book with available := v } := by
  unfold resolveBook
  exact find?_append_cons_first pre _ post (by simp) hpre

theorem resolveBook_of_split {data : Document} {pre : List Book} {book : Book}
    {post : List Book} (hbooks : data.books = pre ++ book :: post)
    (hpre : ∀ y ∈ pre, (y.id == book.id) = false) :
    resolveBook data book.id = some book := by
  unfold resolveBook
  rw [hbooks]
  exact find?_append_cons_first pre _ post (by simp) hpre

theorem slotInv_borrow {data : Document} {req : BorrowRequest} {userId : String}
    {nowMs : Nat} {nowIso : String} {res : Response} {d : Document}
    (h : borrow data req userId nowMs nowIso = (res, some d)) (hinv : SlotInv data) :
    SlotInv d := by
  obtain ⟨pre, book, post, record, hbooks, hpre, hid, hav, hret, rfl⟩ := borrow_saved h
  rw [← hid] at hpre
  intro x
  rw [activeCount_push data _ record hret]
  by_cases hx : record.bookId = x
  · subst hx
    rw [if_pos rfl, ← hid]
    have hold := hinv book.id
    unfold heldSlot at hold ⊢
    rw [resolveBook_of_split hbooks hpre] at hold
    rw [resolveBook_flip_same _ _ false hpre]
    simp [hav] at hold ⊢
    omega
  · rw [if_neg hx, Nat.add_zero]
    have hold := hinv x
    unfold heldSlot at hold ⊢
    rw [resolveBook_flip_other hbooks _ _ false (by rw [hid]; exact hx)]
    exact hold

theorem slotInv_giveBack {data : Document} {borrowId : Option String} {nowIso : String}
    {res : Response} {d : Document} (h : giveBack data borrowId nowIso = (res, some d))
    (hinv : SlotInv data) : SlotInv d := by
  obtain ⟨rpre, record, rpost, hledger, hret, hcase⟩ := giveBack_saved h
  rcases hcase with ⟨_, rfl⟩ | ⟨pre, book, post, hbooks, hpre, hid, rfl⟩
  · intro x
    have hcount := activeCount_mark_returned data data.books rpre record rpost nowIso hledger
      hret x
    have hold := hinv x
    have hslot : heldSlot { data with borrowedBooks :=
        rpre ++ { record with returned := true, returnDate := some nowIso } :: rpost } x
        = heldSlot data x := rfl
    rw [hslot]
    omega
  · rw [← hid] at hpre
    intro x
    have hcount := activeCount_mark_returned data
      (pre ++ { book with available := true } :: post) rpre record rpost nowIso hledger hret x
    have hold := hinv x
    by_cases hx : record.bookId = x
    · rw [if_pos hx] at hcount
      have := heldSlot_le_one data x
      omega
    · rw [if_neg hx, Nat.add_zero] at hcount
      rw [← hcount]
      unfold heldSlot at hold ⊢
      rw [resolveBook_flip_other hbooks _ _ true (by rw [hid]; exact hx)]
      exact hold

theorem slotInv_addBook {data : Document} {req : AddBookRequest} {nowMs : Nat}
    {res : Response} {d : Document} (h : addBook data req nowMs = (res, some d))
    (hinv : SlotInv data) : SlotInv d := by
  obtain ⟨book, _, rfl⟩ := addBook_saved h
  intro x
  have hold := hinv x
  have hcnt : activeCount { data with books := data.books ++ [book] } x = activeCount data x :=
    rfl
  rw [hcnt]
  unfold heldSlot resolveBook at hold ⊢
  simp only [List.find?_append]
  cases hfind : data.books.find? (fun b => b.id == x) with
  | some b => simpa [hfind] using hold
  | none =>
    rw [hfind] at hold
    simp only at hold
    omega

theorem slotInv_registerUser {data : Document} {req : RegisterRequest} {hashed : String}
    {nowMs : Nat} {res : Response} {d : Document}
    (h : registerUser data req hashed nowMs = (res, some d)) (hinv : SlotInv data) :
    SlotInv d := by
  obtain ⟨user, rfl⟩ := registerUser_saved h
  exact hinv

theorem slotInv_serve (c : Call) (s : Store) (hinv : SlotInv (readData s)) :
    SlotInv (readData (serve s c).2) := by
  cases c with
  | register req hashed nowMs writeOk =>
    rcases commit_store s (registerUser (readData s) req hashed nowMs) writeOk with
      h | ⟨d, hd, h⟩
    · have hs : (serve s (.register req hashed nowMs writeOk)).2 = s := h
      rw [hs]; exact hinv
    · have hs : (serve s (.register req hashed nowMs writeOk)).2 = some d := h
      rw [hs]
      have hb : registerUser (readData s) req hashed nowMs
          = ((registerUser (readData s) req hashed nowMs).1, some d) := Prod.ext rfl hd
      exact slotInv_registerUser hb hinv
  | addBook req nowMs writeOk =>
    rcases commit_store s (addBook (readData s) req nowMs) writeOk with h | ⟨d, hd, h⟩
    · have hs : (serve s (.addBook req nowMs writeOk)).2 = s := h
      rw [hs]; exact hinv
    · have hs : (serve s (.addBook req nowMs writeOk)).2 = some d := h
      rw [hs]
      have hb : addBook (readData s) req nowMs
          = ((addBook (readData s) req nowMs).1, some d) := Prod.ext rfl hd
      exact slotInv_addBook hb hinv
  | borrow req userId nowMs nowIso writeOk =>
    rcases commit_store s (borrow (readData s) req userId nowMs nowIso) writeOk with
      h | ⟨d, hd, h⟩
    · have hs : (serve s (.borrow req userId nowMs nowIso writeOk)).2 = s := h
      rw [hs]; exact hinv
    · have hs : (serve s (.borrow req userId nowMs nowIso writeOk)).2 = some d := h
      rw [hs]
      have hb : borrow (readData s) req userId nowMs nowIso
          = ((borrow (readData s) req userId nowMs nowIso).1, some d) := Prod.ext rfl hd
      exact slotInv_borrow hb hinv
  | giveBack borrowId nowIso writeOk =>
    rcases commit_store s (giveBack (readData s) borrowId nowIso) writeOk with
      h | ⟨d, hd, h⟩
    · have hs : (serve s (.giveBack borrowId nowIso writeOk)).2 = s := h
      rw [hs]; exact hinv
    · have hs : (serve s (.giveBack borrowId nowIso writeOk)).2 = some d := h
      rw [hs]
      have hb : giveBack (readData s) borrowId nowIso
          = ((giveBack (readData s) borrowId nowIso).1, some d) := Prod.ext rfl hd
      exact slotInv_giveBack hb hinv

theorem slotInv_of_empty_ledger {d : Document} (h : d.borrowedBooks = []) : SlotInv d := by
  intro x
  simp [activeCount, h]

/-! ## C1: availability matches the ledger -/

/-- C1 (amended): starting from a store whose catalog has pairwise distinct book ids and in
which every available book has no open record and every unavailable book exactly one, after
any finite sequence of serialized borrow and giveBack calls (whatever their inputs, clock
values and write outcomes), for every book `b`, `b.available = false` if and only if exactly
one record with `bookId = b.id` and `returned = false` exists; the two starting conditions
hold again as well. -/
theorem availability_matches_ledger_after_lending (s : Store) (cs : List Call)
    (hcs : ∀ c ∈ cs, c.isLending = true) (hids : DistinctBookIds (readData s))
    (htrack : LedgerTracksBooks (readData s)) :
    AvailabilityMatchesLedger (readData (serveAll s cs)) ∧
      DistinctBookIds (readData (serveAll s cs)) ∧
      LedgerTracksBooks (readData (serveAll s cs)) := by
  have hinv : LendingInv (readData (serveAll s cs)) :=
    serveAll_preserves LendingInv cs s
      (fun c hc s0 h0 => lendingInv_serve c (hcs c hc) s0 h0) ⟨hids, htrack⟩
  exact ⟨availabilityMatchesLedger_of_tracks hinv.2, hinv.1, hinv.2⟩

/-- C1 witness: the sample catalog (one available book, empty ledger) run through the
sample lending calls. -/
theorem availability_matches_ledger_after_lending_witness :
    ((∀ c ∈ sampleCalls, c.isLending = true) ∧ DistinctBookIds (readData (some sampleDoc)) ∧
      LedgerTracksBooks (readData (some sampleDoc))) ∧
    AvailabilityMatchesLedger (readData (serveAll (some sampleDoc) sampleCalls)) ∧
      DistinctBookIds (readData (serveAll (some sampleDoc) sampleCalls)) ∧
      LedgerTracksBooks (readData (serveAll (some sampleDoc) sampleCalls)) :=
  ⟨⟨by decide, by decide, by decide⟩,
    availability_matches_ledger_after_lending (some sampleDoc) sampleCalls (by decide)
      (by decide) (ledgerTracksBooks_of_fresh (by decide) rfl)⟩

/-- C1 counterexample: the property as stated is not preserved.  (1) An available book with
two open records satisfies it, and one giveBack leaves the book available with exactly one
open record.  (2) A catalog of two available books sharing an id with an empty ledger
satisfies it, and one borrow leaves the second book available with exactly one open record
for its id. -/
theorem availability_matches_ledger_counterexample :
    (AvailabilityMatchesLedger (readData (some heldTwiceDoc)) ∧
      ¬ AvailabilityMatchesLedger (readData (serveAll (some heldTwiceDoc)
          [.giveBack (some "r1") "2024-01-02T09:00:00.000Z" true]))) ∧
    ((∀ b ∈ twinIdsDoc.books, b.available = true) ∧ twinIdsDoc.borrowedBooks = [] ∧
      AvailabilityMatchesLedger (readData (some twinIdsDoc)) ∧
      ¬ AvailabilityMatchesLedger (readData (serveAll (some twinIdsDoc)
          [.borrow sampleBorrow "1" 7 "2024-01-01T09:00:00.000Z" true]))) := by
  decide

/-! ## C2: at most one open borrow per book id -/

/-- C2: starting from a store whose ledger is empty, after any finite sequence of serialized
calls (addBook, borrow, giveBack, and register as well), every book id has at most one
record with that `bookId` and `returned = false`. -/
theorem single_active_borrow_after_calls (s : Store) (cs : List Call)
    (hledger : (readData s).borrowedBooks = []) :
    SingleActiveBorrow (readData (serveAll s cs)) := by
  have hinv : SlotInv (readData (serveAll s cs)) :=
    serveAll_preserves SlotInv cs s (fun c _ s0 h0 => slotInv_serve c s0 h0)
      (slotInv_of_empty_ledger hledger)
  intro x
  exact Nat.le_trans (hinv x) (heldSlot_le_one _ x)

/-- C2 witness: the twin-id catalog with an empty ledger, run through an addBook and the
sample lending calls. -/
theorem single_active_borrow_after_calls_witness :
    (readData (some twinIdsDoc)).borrowedBooks = [] ∧
    SingleActiveBorrow (readData (serveAll (some twinIdsDoc)
      (.addBook ⟨some "Emma", some "Jane Austen", some "Fiction"⟩ 7 true :: sampleCalls))) :=
  ⟨rfl, single_active_borrow_after_calls (some twinIdsDoc) _ rfl⟩

/-! ## Evaluating the lending handlers -/

theorem split_of_resolveBook {d : Document} {bookId : String} {book : Book}
    (h : resolveBook d bookId = some book) :
    book.id = bookId ∧ ∃ pre post, d.books = pre ++ book :: post ∧
      ∀ y ∈ pre, (y.id == bookId) = false := by
  unfold resolveBook at h
  obtain ⟨hb, pre, post, hsplit, hpre⟩ := List.find?_eq_some.mp h
  refine ⟨by simpa using hb, pre, post, hsplit, ?_⟩
  intro y hy
  simpa using hpre y hy

theorem split_of_resolveRecord {d : Document} {borrowId : String} {record : BorrowRecord}
    (h : resolveRecord d borrowId = some record) :
    record.id = borrowId ∧ ∃ rpre rpost, d.borrowedBooks = rpre ++ record :: rpost ∧
      ∀ y ∈ rpre, (y.id == borrowId) = false := by
  unfold resolveRecord at h
  obtain ⟨hb, pre, post, hsplit, hpre⟩ := List.find?_eq_some.mp h
  refine ⟨by simpa using hb, pre, post, hsplit, ?_⟩
  intro y hy
  simpa using hpre y hy

/-- The handler `borrow` on a request with three non-empty fields whose `bookId` is the id
of the book at the split point and of no earlier book. -/
theorem borrow_eval {data : Document} {pre : List Book} {book : Book} {post : List Book}
    {bookId borrowerName dueDate : String} (userId : String) (nowMs : Nat) (nowIso : String)
    (hb : bookId ≠ "") (hn : borrowerName ≠ "") (hd : dueDate ≠ "")
    (hbooks : data.books = pre ++ book :: post)
    (hpre : ∀ y ∈ pre, (y.id == bookId) = false) (hid : book.id = bookId) :
    borrow data ⟨some bookId, some borrowerName, some dueDate⟩ userId nowMs nowIso
      = if book.available = false then
          (⟨400, .message "Book is already borrowed"⟩, none)
        else
          (⟨201, .record
              { id := toString nowMs, bookId := bookId, bookTitle := book.title,
                bookAuthor := book.author, category := book.category,
                borrowerName := borrowerName, borrowedBy := userId, borrowedDate := nowIso,
                dueDate := dueDate, returned := false, returnDate := none }⟩,
            some { users := data.users,
                   books := pre ++ { book with available := false } :: post,
                   borrowedBooks := data.borrowedBooks ++
                    [{ id := toString nowMs, bookId := bookId, bookTitle := book.title,
                       bookAuthor := book.author, category := book.category,
                       borrowerName := borrowerName, borrowedBy := userId,
                       borrowedDate := nowIso, dueDate := dueDate, returned := false,
                       returnDate := none }] }) := by
  have hidx : findIndex (fun b : Book => b.id == bookId) data.books = some pre.length := by
    rw [hbooks]
    exact findIndex_append_cons pre book post (by simp [hid]) hpre
  have hget : data.books[pre.length]? = some book := by
    rw [hbooks]; exact getElem?_append_cons_length pre book post
  have hmod : data.books.modify (fun b => { b with available := false }) pre.length
      = pre ++ { book with available := false } :: post := by
    rw [hbooks]; exact modify_append_cons_length _ pre book post
  unfold borrow
  simp only [truthy, bne_iff_ne, ne_eq, hb, hn, hd, not_false_eq_true, decide_True,
    Bool.not_true, Bool.or_self, Bool.false_eq_true, ↓reduceIte, hidx, hget, hmod]
  cases book.available <;> simp [hb, hn, hd]

/-- The handler `giveBack` on a non-empty `borrowId` that is the id of the record at the
split point and of no earlier record. -/
theorem giveBack_eval {data : Document} {rpre : List BorrowRecord} {record : BorrowRecord}
    {rpost : List BorrowRecord} {borrowId : String} (nowIso : String) (hb : borrowId ≠ "")
    (hledger : data.borrowedBooks = rpre ++ record :: rpost)
    (hpre : ∀ y ∈ rpre, (y.id == borrowId) = false) (hid : record.id = borrowId) :
    giveBack data (some borrowId) nowIso
      = if record.returned = true then
          (⟨400, .message "Book is already returned"⟩, none)
        else
          (⟨200, .record { record with returned := true, returnDate := some nowIso }⟩,
            some { users := data.users,
                   books :=
                    match findIndex (fun book => book.id == record.bookId) data.books with
                    | none => data.books
                    | some bookIndex =>
                      data.books.modify (fun b => { b with available := true }) bookIndex,
                   borrowedBooks :=
                    rpre ++ { record with returned := true, returnDate := some nowIso } ::
                      rpost }) := by
  have hidx : findIndex (fun r : BorrowRecord => r.id == borrowId) data.borrowedBooks
      = some rpre.length := by
    rw [hledger]
    exact findIndex_append_cons rpre record rpost (by simp [hid]) hpre
  have hget : data.borrowedBooks[rpre.length]? = some record := by
    rw [hledger]; exact getElem?_append_cons_length rpre record rpost
  have hmod : data.borrowedBooks.modify
      (fun r => { r with returned := true, returnDate := some nowIso }) rpre.length
      = rpre ++ { record with returned := true, returnDate := some nowIso } :: rpost := by
    rw [hledger]; exact modify_append_cons_length _ rpre record rpost
  unfold giveBack
  simp only [truthy, bne_iff_ne, ne_eq, hb, not_false_eq_true, decide_True,
    Bool.not_true, Bool.false_eq_true, ↓reduceIte, hidx, hget, hmod]
  cases record.returned <;> simp [hb]

theorem commit_none (s : Store) (res : Response) (writeOk : Bool) :
    commit s (res, none) writeOk = (res, s) := rfl

theorem commit_some (s : Store) (res : Response) (d : Document) (writeOk : Bool) :
    commit s (res, some d) writeOk = (res, if writeOk = true then some d else s) := by
  cases writeOk <;> rfl

theorem borrow_notFound (data : Document) {bookId borrowerName dueDate : String}
    (userId : String) (nowMs : Nat) (nowIso : String)
    (hb : bookId ≠ "") (hn : borrowerName ≠ "") (hd : dueDate ≠ "")
    (hnone : ∀ b ∈ data.books, (b.id == bookId) = false) :
    borrow data ⟨some bookId, some borrowerName, some dueDate⟩ userId nowMs nowIso
      = (⟨404, .message "Book not found"⟩, none) := by
  have hidx : findIndex (fun b : Book => b.id == bookId) data.books = none :=
    findIndex_of_forall_false _ hnone
  unfold borrow
  simp [truthy, hb, hn, hd, hidx]

theorem giveBack_notFound (data : Document) {borrowId : String} (nowIso : String)
    (hb : borrowId ≠ "") (hnone : ∀ r ∈ data.borrowedBooks, (r.id == borrowId) = false) :
    giveBack data (some borrowId) nowIso
      = (⟨404, .message "Borrowed book record not found"⟩, none) := by
  have hidx : findIndex (fun r : BorrowRecord => r.id == borrowId) data.borrowedBooks = none :=
    findIndex_of_forall_false _ hnone
  unfold giveBack
  simp [truthy, hb, hidx]

/-! ## C3: a successful borrow -/

/-- C3: for every store and every borrow request with non-empty bookId, borrowerName and
dueDate whose bookId resolves to an available book, `borrow` answers 201 with a record that
has `returned = false`, carries the request's bookId, borrowerName and dueDate, the book's
title, author and category, the acting user's id and the current time; the document it
saves is the loaded one with that book's flag set to false (every book before and after it
unchanged), the users unchanged and exactly that record appended to the ledger; the route
performs one `writeData` with that document, so the store holds both changes when the write
succeeds and neither when it fails. -/
theorem borrow_available_book_succeeds (s : Store)
    (bookId borrowerName dueDate userId : String) (nowMs : Nat) (nowIso : String)
    (writeOk : Bool) (book : Book)
    (hb : bookId ≠ "") (hn : borrowerName ≠ "") (hd : dueDate ≠ "")
    (hres : resolveBook (readData s) bookId = some book) (hav : book.available = true) :
    ∃ pre post record saved,
      (readData s).books = pre ++ book :: post ∧ (∀ y ∈ pre, y.id ≠ bookId) ∧
      record =
        { id := toString nowMs, bookId := bookId, bookTitle := book.title,
          bookAuthor := book.author, category := book.category,
          borrowerName := borrowerName, borrowedBy := userId, borrowedDate := nowIso,
          dueDate := dueDate, returned := false, returnDate := none } ∧
      saved =
        { users := (readData s).users,
          books := pre ++ { book with available := false } :: post,
          borrowedBooks := (readData s).borrowedBooks ++ [record] } ∧
      borrow (readData s) ⟨some bookId, some borrowerName, some dueDate⟩ userId nowMs nowIso
        = (⟨201, .record record⟩, some saved) ∧
      postBorrow s ⟨some bookId, some borrowerName, some dueDate⟩ userId nowMs nowIso writeOk
        = (⟨201, .record record⟩, if writeOk = true then some saved else s) := by
  obtain ⟨hid, pre, post, hsplit, hpre⟩ := split_of_resolveBook hres
  have heval := borrow_eval userId nowMs nowIso hb hn hd hsplit hpre hid
  rw [if_neg (by simp [hav])] at heval
  refine ⟨pre, post, _, _, hsplit, ?_, rfl, rfl, heval, ?_⟩
  · intro y hy
    simpa using hpre y hy
  · unfold postBorrow
    rw [heval, commit_some]

/-- C3 witness: borrowing the available sample book. -/
theorem borrow_available_book_succeeds_witness :
    ("b1" ≠ "" ∧ "Alice" ≠ "" ∧ "2024-01-10" ≠ "" ∧
      resolveBook (readData (some sampleDoc)) "b1" = some sampleBook ∧
      sampleBook.available = true) ∧
    (postBorrow (some sampleDoc) ⟨some "b1", some "Alice", some "2024-01-10"⟩ "1" 7
        "2024-01-01T09:00:00.000Z" true).1
      = ⟨201, .record (sampleRecord "7")⟩ := by
  refine ⟨by decide, ?_⟩
  obtain ⟨_, _, record, _, _, _, hrec, _, _, hpost⟩ :=
    borrow_available_book_succeeds (some sampleDoc) "b1" "Alice" "2024-01-10" "1" 7
      "2024-01-01T09:00:00.000Z" true sampleBook (by decide) (by decide) (by decide)
      (by decide) rfl
  rw [hpost, hrec]
  rfl

/-! ## C4: a successful return -/

/-- C4 (amended): for every store and every non-empty borrowId that resolves to a record
`r` with `returned = false`, `giveBack` answers 200 with `r` updated; in the saved document
`r` has `returned = true` and `returnDate` the current time and is otherwise unchanged, every
other record and the users are unchanged, and the first book whose id is `r.bookId` (the
only one when book ids are distinct) has `available = true` with every other book unchanged.
When no book has id `r.bookId` the call still answers 200 and saves the ledger update with
the books unchanged.  The store holds the saved document when the write succeeds. -/
theorem giveBack_open_record_succeeds (s : Store) (borrowId nowIso : String) (writeOk : Bool)
    (record : BorrowRecord) (hne : borrowId ≠ "")
    (hres : resolveRecord (readData s) borrowId = some record)
    (hret : record.returned = false) :
    ∃ rpre rpost updated books saved,
      (readData s).borrowedBooks = rpre ++ record :: rpost ∧ (∀ y ∈ rpre, y.id ≠ borrowId) ∧
      updated = { record with returned := true, returnDate := some nowIso } ∧
      ((resolveBook (readData s) record.bookId = none ∧ books = (readData s).books) ∨
        ∃ pre book post,
          resolveBook (readData s) record.bookId = some book ∧
          (readData s).books = pre ++ book :: post ∧ (∀ y ∈ pre, y.id ≠ record.bookId) ∧
          books = pre ++ { book with available := true } :: post) ∧
      (DistinctBookIds (readData s) →
        ∀ b ∈ books, b.id = record.bookId → b.available = true) ∧
      saved = { users := (readData s).users, books := books,
                borrowedBooks := rpre ++ updated :: rpost } ∧
      giveBack (readData s) (some borrowId) nowIso = (⟨200, .record updated⟩, some saved) ∧
      postReturn s (some borrowId) nowIso writeOk
        = (⟨200, .record updated⟩, if writeOk = true then some saved else s) := by
  obtain ⟨hid, rpre, rpost, hsplit, hpre⟩ := split_of_resolveRecord hres
  have heval := giveBack_eval nowIso hne hsplit hpre hid
  rw [if_neg (by simp [hret])] at heval
  have hpre2 : ∀ y ∈ rpre, y.id ≠ borrowId := by
    intro y hy
    simpa using hpre y hy
  cases hfind : findIndex (fun book : Book => book.id == record.bookId) (readData s).books with
  | none =>
    rw [hfind] at heval
    have hnone : resolveBook (readData s) record.bookId = none := by
      unfold resolveBook
      rw [List.find?_eq_none]
      intro x hx
      simpa using findIndex_eq_none hfind x hx
    refine ⟨rpre, rpost, _, _, _, hsplit, hpre2, rfl, Or.inl ⟨hnone, rfl⟩, ?_, rfl, heval, ?_⟩
    · intro _ b hb hbid
      have := findIndex_eq_none hfind b hb
      simp [hbid] at this
    · unfold postReturn
      rw [heval, commit_some]
  | some bookIndex =>
    obtain ⟨pre, book, post, hbooks, hlen, hbook, hbpre⟩ := findIndex_eq_some hfind
    subst hlen
    rw [hfind] at heval
    simp only at heval
    rw [hbooks, modify_append_cons_length] at heval
    have hbid : book.id = record.bookId := by simpa using hbook
    have hsome : resolveBook (readData s) record.bookId = some book := by
      unfold resolveBook
      rw [hbooks]
      exact find?_append_cons_first pre book post hbook hbpre
    refine ⟨rpre, rpost, _, _, _, hsplit, hpre2, rfl,
      Or.inr ⟨pre, book, post, hsome, hbooks, ?_, rfl⟩, ?_, rfl, heval, ?_⟩
    · intro y hy
      simpa using hbpre y hy
    · intro hdist b hb hbeq
      have hnd : ((pre ++ book :: post).map (fun b => b.id)).Nodup := by
        unfold DistinctBookIds at hdist
        rwa [hbooks] at hdist
      simp only [List.mem_append, List.mem_cons] at hb
      rcases hb with hb | rfl | hb
      · exact absurd (hbeq.trans hbid.symm) (id_ne_of_nodup hnd (Or.inl hb))
      · rfl
      · exact absurd (hbeq.trans hbid.symm) (id_ne_of_nodup hnd (Or.inr hb))
    · unfold postReturn
      rw [giveBack_eval nowIso hne hsplit hpre hid, if_neg (by simp [hret]), hfind]
      simp only
      rw [hbooks, modify_append_cons_length, commit_some]

/-- C4 witness: returning record `r1` of the lent-out sample book. -/
theorem giveBack_open_record_succeeds_witness :
    ("r1" ≠ "" ∧ resolveRecord (readData (some heldDoc)) "r1" = some (sampleRecord "r1") ∧
      (sampleRecord "r1").returned = false) ∧
    (postReturn (some heldDoc) (some "r1") "2024-01-02T09:00:00.000Z" true).1
      = ⟨200, .record { sampleRecord "r1" with
            returned := true, returnDate := some "2024-01-02T09:00:00.000Z" }⟩ := by
  refine ⟨by decide, ?_⟩
  obtain ⟨_, _, updated, _, _, _, _, hupd, _, _, _, _, hpost⟩ :=
    giveBack_open_record_succeeds (some heldDoc) "r1" "2024-01-02T09:00:00.000Z" true
      (sampleRecord "r1") (by decide) (by decide) rfl
  rw [hpost, hupd]

/-- C4 counterexample: (1) the empty borrowId resolves to an open record whose id is the
empty string, and `giveBack` answers 400 "Borrow ID is required" without saving.  (2) With
two unavailable books sharing the id `b1`, returning record `r1` answers 200 and saves a
catalog in which the second book with id `b1` is still unavailable. -/
theorem giveBack_open_record_counterexample :
    (resolveRecord (blankIdDoc false) "" = some { sampleRecord "" with returned := false } ∧
      giveBack (blankIdDoc false) (some "") "2024-01-02T09:00:00.000Z"
        = (⟨400, .message "Borrow ID is required"⟩, none)) ∧
    (resolveRecord twinHeldDoc "r1" = some (sampleRecord "r1") ∧
      (giveBack twinHeldDoc (some "r1") "2024-01-02T09:00:00.000Z").1.status = 200 ∧
      ∃ saved, (giveBack twinHeldDoc (some "r1") "2024-01-02T09:00:00.000Z").2 = some saved ∧
        ∃ b ∈ saved.books, b.id = (sampleRecord "r1").bookId ∧ b.available = false) := by
  refine ⟨by decide, by decide, by decide, _, rfl, ?_⟩
  exact ⟨{ sampleBook with title := "Emma", available := false }, by decide, rfl, rfl⟩

/-! ## C5: borrowing a book that is already borrowed -/

/-- C5 (amended): for every store and every borrow request with non-empty bookId,
borrowerName and dueDate whose bookId resolves to a book with `available = false`, `borrow`
answers Conflict (400 "Book is already borrowed"), performs no save and leaves the store
unchanged.  In particular, after a borrow that answered 201 and whose write succeeded, a
second borrow of the same bookId (any non-empty borrowerName and dueDate, any user and
clock) answers Conflict and leaves the store unchanged. -/
theorem borrow_unavailable_conflict (s : Store) (bookId borrowerName dueDate userId : String)
    (nowMs : Nat) (nowIso : String) (writeOk : Bool)
    (hb : bookId ≠ "") (hn : borrowerName ≠ "") (hd : dueDate ≠ "") :
    (∀ book, resolveBook (readData s) bookId = some book → book.available = false →
      borrow (readData s) ⟨some bookId, some borrowerName, some dueDate⟩ userId nowMs nowIso
        = (⟨400, .message "Book is already borrowed"⟩, none) ∧
      postBorrow s ⟨some bookId, some borrowerName, some dueDate⟩ userId nowMs nowIso writeOk
        = (⟨400, .message "Book is already borrowed"⟩, s)) ∧
    (∀ (name1 due1 user1 : String) (ms1 : Nat) (iso1 : String),
      (postBorrow s ⟨some bookId, some name1, some due1⟩ user1 ms1 iso1 true).1.status = 201 →
      postBorrow (postBorrow s ⟨some bookId, some name1, some due1⟩ user1 ms1 iso1 true).2
          ⟨some bookId, some borrowerName, some dueDate⟩ userId nowMs nowIso writeOk
        = (⟨400, .message "Book is already borrowed"⟩,
            (postBorrow s ⟨some bookId, some name1, some due1⟩ user1 ms1 iso1 true).2)) := by
  have part1 : ∀ (s0 : Store) (book : Book), resolveBook (readData s0) bookId = some book →
      book.available = false →
      borrow (readData s0) ⟨some bookId, some borrowerName, some dueDate⟩ userId nowMs nowIso
        = (⟨400, .message "Book is already borrowed"⟩, none) ∧
      postBorrow s0 ⟨some bookId, some borrowerName, some dueDate⟩ userId nowMs nowIso writeOk
        = (⟨400, .message "Book is already borrowed"⟩, s0) := by
    intro s0 book hres hav
    obtain ⟨hid, pre, post, hsplit, hpre⟩ := split_of_resolveBook hres
    have heval := borrow_eval userId nowMs nowIso hb hn hd hsplit hpre hid
    rw [if_pos hav] at heval
    refine ⟨heval, ?_⟩
    unfold postBorrow
    rw [heval, commit_none]
  refine ⟨part1 s, ?_⟩
  intro name1 due1 user1 ms1 iso1 hstatus
  have hn1 : name1 ≠ "" := by
    intro h
    subst h
    simp [postBorrow, commit, borrow, truthy] at hstatus
  have hd1 : due1 ≠ "" := by
    intro h
    subst h
    simp [postBorrow, commit, borrow, truthy] at hstatus
  cases hfind : resolveBook (readData s) bookId with
  | none =>
    have hnone : ∀ b ∈ (readData s).books, (b.id == bookId) = false := by
      unfold resolveBook at hfind
      rw [List.find?_eq_none] at hfind
      intro b hbm
      simpa using hfind b hbm
    have h404 := borrow_notFound (readData s) user1 ms1 iso1 hb hn1 hd1 hnone
    unfold postBorrow at hstatus
    rw [h404, commit_none] at hstatus
    simp at hstatus
  | some book =>
    obtain ⟨hid, pre, post, hsplit, hpre⟩ := split_of_resolveBook hfind
    have heval := borrow_eval user1 ms1 iso1 hb hn1 hd1 hsplit hpre hid
    cases hav : book.available with
    | false =>
      rw [if_pos hav] at heval
      unfold postBorrow at hstatus
      rw [heval, commit_none] at hstatus
      simp at hstatus
    | true =>
      rw [if_neg (by simp [hav])] at heval
      have hstore := congrArg Prod.snd
        (show postBorrow s ⟨some bookId, some name1, some due1⟩ user1 ms1 iso1 true
          = commit s (borrow (readData s) ⟨some bookId, some name1, some due1⟩ user1 ms1 iso1)
              true from rfl)
      rw [heval, commit_some] at hstore
      simp only [↓reduceIte] at hstore
      rw [hstore]
      refine (part1 (some _) { book with available := false } ?_ rfl).2
      rw [← hid] at hpre ⊢
      exact resolveBook_flip_same _ _ false hpre

/-- C5 witness: a borrow request for the lent-out sample book, and a repeated borrow of the
sample book right after a first one. -/
theorem borrow_unavailable_conflict_witness :
    ("b1" ≠ "" ∧ "Bob" ≠ "" ∧ "2024-02-01" ≠ "" ∧
      resolveBook (readData (some heldDoc)) "b1" = some { sampleBook with available := false } ∧
      (postBorrow (some sampleDoc) ⟨some "b1", some "Alice", some "2024-01-10"⟩ "1" 7
        "2024-01-01T09:00:00.000Z" true).1.status = 201) ∧
    postBorrow (some heldDoc) ⟨some "b1", some "Bob", some "2024-02-01"⟩ "2" 8
        "2024-01-01T09:00:01.000Z" true
      = (⟨400, .message "Book is already borrowed"⟩, some heldDoc) ∧
    postBorrow
        (postBorrow (some sampleDoc) ⟨some "b1", some "Alice", some "2024-01-10"⟩ "1" 7
          "2024-01-01T09:00:00.000Z" true).2
        ⟨some "b1", some "Bob", some "2024-02-01"⟩ "2" 8 "2024-01-01T09:00:01.000Z" true
      = (⟨400, .message "Book is already borrowed"⟩,
          (postBorrow (some sampleDoc) ⟨some "b1", some "Alice", some "2024-01-10"⟩ "1" 7
            "2024-01-01T09:00:00.000Z" true).2) :=
  ⟨by decide,
    ((borrow_unavailable_conflict (some heldDoc) "b1" "Bob" "2024-02-01" "2" 8
      "2024-01-01T09:00:01.000Z" true (by decide) (by decide) (by decide)).1
        { sampleBook with available := false } (by decide) rfl).2,
    (borrow_unavailable_conflict (some sampleDoc) "b1" "Bob" "2024-02-01" "2" 8
      "2024-01-01T09:00:01.000Z" true (by decide) (by decide) (by decide)).2
        "Alice" "2024-01-10" "1" 7 "2024-01-01T09:00:00.000Z" (by decide)⟩

/-- C5 counterexample: bookId `b1` resolves to an unavailable book, yet a request whose
borrowerName is the empty string is answered 400 "Book ID, borrower name, and due date are
required", which is not the Conflict answer. -/
theorem borrow_unavailable_counterexample :
    (∃ book, resolveBook heldDoc "b1" = some book ∧ book.available = false) ∧
    (borrow heldDoc ⟨some "b1", some "", some "2024-02-01"⟩ "2" 8 "2024-01-01T09:00:01.000Z").1
      = ⟨400, .message "Book ID, borrower name, and due date are required"⟩ ∧
    (borrow heldDoc ⟨some "b1", some "", some "2024-02-01"⟩ "2" 8 "2024-01-01T09:00:01.000Z").1
      ≠ ⟨400, .message "Book is already borrowed"⟩ := by
  refine ⟨⟨{ sampleBook with available := false }, by decide, rfl⟩, by decide, by decide⟩

/-! ## C6: returning a record that is already returned -/

theorem resolveRecord_of_split {data : Document} {rpre : List BorrowRecord}
    {record : BorrowRecord} {rpost : List BorrowRecord} {borrowId : String}
    (hledger : data.borrowedBooks = rpre ++ record :: rpost)
    (hpre : ∀ y ∈ rpre, (y.id == borrowId) = false) (hid : record.id = borrowId) :
    resolveRecord data borrowId = some record := by
  unfold resolveRecord
  rw [hledger]
  exact find?_append_cons_first rpre record rpost (by simp [hid]) hpre

/-- C6 (amended): for every store and every non-empty borrowId that resolves to a record
with `returned = true`, `giveBack` answers Conflict (400 "Book is already returned"),
performs no save and leaves the store unchanged, so `returnDate` keeps its value and no
book flag changes.  In particular, after a giveBack that answered 200 and whose write
succeeded, a second giveBack of the same borrowId answers Conflict and leaves the store
unchanged. -/
theorem giveBack_returned_conflict (s : Store) (borrowId nowIso : String) (writeOk : Bool)
    (hne : borrowId ≠ "") :
    (∀ record, resolveRecord (readData s) borrowId = some record → record.returned = true →
      giveBack (readData s) (some borrowId) nowIso
        = (⟨400, .message "Book is already returned"⟩, none) ∧
      postReturn s (some borrowId) nowIso writeOk
        = (⟨400, .message "Book is already returned"⟩, s)) ∧
    (∀ iso1 : String,
      (postReturn s (some borrowId) iso1 true).1.status = 200 →
      postReturn (postReturn s (some borrowId) iso1 true).2 (some borrowId) nowIso writeOk
        = (⟨400, .message "Book is already returned"⟩,
            (postReturn s (some borrowId) iso1 true).2)) := by
  have part1 : ∀ (s0 : Store) (record : BorrowRecord),
      resolveRecord (readData s0) borrowId = some record → record.returned = true →
      giveBack (readData s0) (some borrowId) nowIso
        = (⟨400, .message "Book is already returned"⟩, none) ∧
      postReturn s0 (some borrowId) nowIso writeOk
        = (⟨400, .message "Book is already returned"⟩, s0) := by
    intro s0 record hres hret
    obtain ⟨hid, rpre, rpost, hsplit, hpre⟩ := split_of_resolveRecord hres
    have heval := giveBack_eval nowIso hne hsplit hpre hid
    rw [if_pos hret] at heval
    refine ⟨heval, ?_⟩
    unfold postReturn
    rw [heval, commit_none]
  refine ⟨part1 s, ?_⟩
  intro iso1 hstatus
  cases hfind : resolveRecord (readData s) borrowId with
  | none =>
    have hnone : ∀ r ∈ (readData s).borrowedBooks, (r.id == borrowId) = false := by
      unfold resolveRecord at hfind
      rw [List.find?_eq_none] at hfind
      intro r hr
      simpa using hfind r hr
    have h404 := giveBack_notFound (readData s) iso1 hne hnone
    unfold postReturn at hstatus
    rw [h404, commit_none] at hstatus
    simp at hstatus
  | some record =>
    obtain ⟨hid, rpre, rpost, hsplit, hpre⟩ := split_of_resolveRecord hfind
    have heval := giveBack_eval iso1 hne hsplit hpre hid
    cases hret : record.returned with
    | true =>
      rw [if_pos hret] at heval
      unfold postReturn at hstatus
      rw [heval, commit_none] at hstatus
      simp at hstatus
    | false =>
      rw [if_neg (by simp [hret])] at heval
      have hstore := congrArg Prod.snd
        (show postReturn s (some borrowId) iso1 true
          = commit s (giveBack (readData s) (some borrowId) iso1) true from rfl)
      rw [heval, commit_some] at hstore
      simp only [↓reduceIte] at hstore
      rw [hstore]
      refine (part1 (some _) { record with returned := true, returnDate := some iso1 } ?_
        rfl).2
      exact @resolveRecord_of_split _ rpre _ rpost _ rfl hpre hid

/-- C6 witness: returning the already returned record `r1`, and returning record `r1` of the
lent-out sample book twice. -/
theorem giveBack_returned_conflict_witness :
    ("r1" ≠ "" ∧
      (∃ record, resolveRecord (readData (some returnedDoc)) "r1" = some record ∧
        record.returned = true) ∧
      (postReturn (some heldDoc) (some "r1") "2024-01-02T09:00:00.000Z" true).1.status = 200) ∧
    postReturn (some returnedDoc) (some "r1") "2024-01-03T09:00:00.000Z" true
      = (⟨400, .message "Book is already returned"⟩, some returnedDoc) ∧
    postReturn (postReturn (some heldDoc) (some "r1") "2024-01-02T09:00:00.000Z" true).2
        (some "r1") "2024-01-03T09:00:00.000Z" true
      = (⟨400, .message "Book is already returned"⟩,
          (postReturn (some heldDoc) (some "r1") "2024-01-02T09:00:00.000Z" true).2) :=
  ⟨⟨by decide,
      ⟨{ sampleRecord "r1" with
          returned := true, returnDate := some "2024-01-02T09:00:00.000Z" }, by decide, rfl⟩,
      by decide⟩,
    ((giveBack_returned_conflict (some returnedDoc) "r1" "2024-01-03T09:00:00.000Z" true
      (by decide)).1
        { sampleRecord "r1" with
          returned := true, returnDate := some "2024-01-02T09:00:00.000Z" }
        (by decide) rfl).2,
    (giveBack_returned_conflict (some heldDoc) "r1" "2024-01-03T09:00:00.000Z" true
      (by decide)).2 "2024-01-02T09:00:00.000Z" (by decide)⟩

/-- C6 counterexample: the empty borrowId resolves to a returned record whose id is the empty
string, yet `giveBack` answers 400 "Borrow ID is required", which is not the Conflict
answer. -/
theorem giveBack_returned_counterexample :
    (∃ record, resolveRecord (blankIdDoc true) "" = some record ∧ record.returned = true) ∧
    (giveBack (blankIdDoc true) (some "") "2024-01-03T09:00:00.000Z").1
      = ⟨400, .message "Borrow ID is required"⟩ ∧
    (giveBack (blankIdDoc true) (some "") "2024-01-03T09:00:00.000Z").1
      ≠ ⟨400, .message "Book is already returned"⟩ := by
  refine ⟨⟨{ sampleRecord "" with returned := true }, by decide, rfl⟩, by decide, by decide⟩

/-! ## C7: ids that do not resolve -/

/-- C7: for every store, a giveBack with a non-empty borrowId that is the id of no record
answers 404 "Borrowed book record not found", and a borrow whose three fields are non-empty
and whose bookId is the id of no book answers 404 "Book not found"; neither performs a save
and both leave the store unchanged. -/
theorem unresolved_id_not_found (s : Store) (writeOk : Bool) :
    (∀ borrowId nowIso : String, borrowId ≠ "" →
      (∀ r ∈ (readData s).borrowedBooks, r.id ≠ borrowId) →
      giveBack (readData s) (some borrowId) nowIso
        = (⟨404, .message "Borrowed book record not found"⟩, none) ∧
      postReturn s (some borrowId) nowIso writeOk
        = (⟨404, .message "Borrowed book record not found"⟩, s)) ∧
    (∀ (bookId borrowerName dueDate userId : String) (nowMs : Nat) (nowIso : String),
      bookId ≠ "" → borrowerName ≠ "" → dueDate ≠ "" →
      (∀ b ∈ (readData s).books, b.id ≠ bookId) →
      borrow (readData s) ⟨some bookId, some borrowerName, some dueDate⟩ userId nowMs nowIso
        = (⟨404, .message "Book not found"⟩, none) ∧
      postBorrow s ⟨some bookId, some borrowerName, some dueDate⟩ userId nowMs nowIso writeOk
        = (⟨404, .message "Book not found"⟩, s)) := by
  constructor
  · intro borrowId nowIso hne hnone
    have h := giveBack_notFound (readData s) nowIso hne
      (fun r hr => by simpa using hnone r hr)
    refine ⟨h, ?_⟩
    unfold postReturn
    rw [h, commit_none]
  · intro bookId borrowerName dueDate userId nowMs nowIso hb hn hd hnone
    have h := borrow_notFound (readData s) userId nowMs nowIso hb hn hd
      (fun b hbm => by simpa using hnone b hbm)
    refine ⟨h, ?_⟩
    unfold postBorrow
    rw [h, commit_none]

/-- C7 witness: an unknown record id and an unknown book id against the lent-out sample
book. -/
theorem unresolved_id_not_found_witness :
    ("r9" ≠ "" ∧ (∀ r ∈ (readData (some heldDoc)).borrowedBooks, r.id ≠ "r9") ∧
      "b9" ≠ "" ∧ "Bob" ≠ "" ∧ "2024-02-01" ≠ "" ∧
      (∀ b ∈ (readData (some heldDoc)).books, b.id ≠ "b9")) ∧
    postReturn (some heldDoc) (some "r9") "2024-01-03T09:00:00.000Z" true
      = (⟨404, .message "Borrowed book record not found"⟩, some heldDoc) ∧
    postBorrow (some heldDoc) ⟨some "b9", some "Bob", some "2024-02-01"⟩ "2" 8
        "2024-01-01T09:00:01.000Z" true
      = (⟨404, .message "Book not found"⟩, some heldDoc) :=
  ⟨by decide,
    ((unresolved_id_not_found (some heldDoc) true).1 "r9" "2024-01-03T09:00:00.000Z"
      (by decide) (by decide)).2,
    ((unresolved_id_not_found (some heldDoc) true).2 "b9" "Bob" "2024-02-01" "2" 8
      "2024-01-01T09:00:01.000Z" (by decide) (by decide) (by decide) (by decide)).2⟩

/-! ## C8: a failed write -/

theorem commit_fst (s : Store) (r : Response × Option Document) (writeOk : Bool) :
    (commit s r writeOk).1 = r.1 := by
  unfold commit
  split <;> rfl

/-- C8 (the code at the failing input): the response of every writing route is the same
whether its write fails or succeeds; with a failing write, a valid register, addBook, borrow
and giveBack request is answered 201, 201, 201 and 200 while the store keeps its old
content. -/
theorem failed_write_answered_as_success :
    (∀ s req hashed nowMs,
      (postRegister s req hashed nowMs false).1 = (postRegister s req hashed nowMs true).1) ∧
    (∀ s req nowMs, (postBooks s req nowMs false).1 = (postBooks s req nowMs true).1) ∧
    (∀ s req userId nowMs nowIso,
      (postBorrow s req userId nowMs nowIso false).1
        = (postBorrow s req userId nowMs nowIso true).1) ∧
    (∀ s borrowId nowIso,
      (postReturn s borrowId nowIso false).1 = (postReturn s borrowId nowIso true).1) ∧
    postRegister (some sampleDoc) ⟨some "alice", some "secret", some "Alice"⟩ "hash" 7 false
      = (⟨201, .message "User registered successfully"⟩, some sampleDoc) ∧
    postBooks (some sampleDoc) ⟨some "Emma", some "Jane Austen", some "Fiction"⟩ 7 false
      = (⟨201, .book ⟨"7", "Emma", "Jane Austen", "Fiction", true⟩⟩, some sampleDoc) ∧
    postBorrow (some sampleDoc) sampleBorrow "1" 7 "2024-01-01T09:00:00.000Z" false
      = (⟨201, .record (sampleRecord "7")⟩, some sampleDoc) ∧
    postReturn (some heldDoc) (some "r1") "2024-01-02T09:00:00.000Z" false
      = (⟨200, .record { sampleRecord "r1" with
            returned := true, returnDate := some "2024-01-02T09:00:00.000Z" }⟩,
          some heldDoc) := by
  refine ⟨?_, ?_, ?_, ?_, by decide, by decide, by decide, by decide⟩
  · intro s req hashed nowMs
    simp only [postRegister, commit_fst]
  · intro s req nowMs
    simp only [postBooks, commit_fst]
  · intro s req userId nowMs nowIso
    simp only [postBorrow, commit_fst]
  · intro s borrowId nowIso
    simp only [postReturn, commit_fst]

/-! ## C9 and C10: the borrowed-books query -/

theorem filter_true_eq {α : Type} (l : List α) : l.filter (fun _ => true) = l := by
  simp

theorem queryBorrowed_eq_filter (E : Env) (data : Document) (userId : String)
    (q : BorrowedQuery) (nowMs : Int) :
    queryBorrowed E data userId q nowMs
      = (data.borrowedBooks.filter (fun r => r.borrowedBy == userId)).filter (fun r =>
          categoryOk q r && (borrowerNameOk E q r &&
            (dueDateOk E q r && overdueOk E q nowMs r))) := by
  obtain ⟨category, borrowerName, dueDate, overdue⟩ := q
  unfold queryBorrowed categoryOk borrowerNameOk dueDateOk overdueOk
  simp only
  rcases category with _ | category <;> rcases borrowerName with _ | borrowerName <;>
    rcases dueDate with _ | dueDate <;>
    by_cases ho : (overdue == some "true") = true <;>
    simp only [ho, ↓reduceIte, Bool.true_and, Bool.and_true, filter_true_eq,
      Bool.false_eq_true] <;>
    (try by_cases hc : (category != "") = true) <;>
    (try by_cases hn : (borrowerName != "") = true) <;>
    (try by_cases hd : (dueDate != "") = true) <;>
    simp only [*, ↓reduceIte, Bool.true_and, Bool.and_true, filter_true_eq,
      Bool.false_eq_true, List.filter_filter] <;>
    (apply List.filter_congr; intro r _; simp only [Bool.and_assoc, Bool.and_comm,
      Bool.and_left_comm])

theorem applyFilters_eq_filter (ps : List (BorrowRecord → Bool)) :
    ∀ l : List BorrowRecord, applyFilters ps l = l.filter (fun r => ps.all (fun p => p r)) := by
  induction ps with
  | nil => intro l; simp [applyFilters]
  | cons p ps ih =>
    intro l
    have h := ih (l.filter p)
    unfold applyFilters at h ⊢
    rw [List.foldl_cons, h, List.filter_filter]
    apply List.filter_congr
    intro r _
    simp [Bool.and_comm]

theorem applyFilters_perm {ps qs : List (BorrowRecord → Bool)} (h : ps.Perm qs)
    (l : List BorrowRecord) : applyFilters ps l = applyFilters qs l := by
  rw [applyFilters_eq_filter, applyFilters_eq_filter]
  apply List.filter_congr
  intro r _
  rw [List.all_eq, List.all_eq]
  simp only [h.mem_iff]

theorem queryBorrowed_eq_applyFilters (E : Env) (data : Document) (userId : String)
    (q : BorrowedQuery) (nowMs : Int) :
    queryBorrowed E data userId q nowMs
      = applyFilters (suppliedFilters E q nowMs)
          (data.borrowedBooks.filter (fun r => r.borrowedBy == userId)) := by
  obtain ⟨category, borrowerName, dueDate, overdue⟩ := q
  unfold queryBorrowed suppliedFilters applyFilters
  simp only
  rcases category with _ | category <;> rcases borrowerName with _ | borrowerName <;>
    rcases dueDate with _ | dueDate <;>
    by_cases ho : (overdue == some "true") = true <;>
    simp only [ho, ↓reduceIte, Bool.false_eq_true, List.append_nil, List.nil_append,
      List.foldl_nil, List.foldl_cons, List.foldl_append] <;>
    (try by_cases hc : (category != "") = true) <;>
    (try by_cases hn : (borrowerName != "") = true) <;>
    (try by_cases hd : (dueDate != "") = true) <;>
    simp only [*, ↓reduceIte, Bool.false_eq_true, List.append_nil, List.nil_append,
      List.foldl_nil, List.foldl_cons, List.foldl_append, List.singleton_append]

/-- C9: every record `queryBorrowed` returns for user `u` has `borrowedBy = u`, whatever the
filters; and two documents whose ledgers have the same sub-list of records with
`borrowedBy = u` give the same result for `u`, whatever records of other users they hold. -/
theorem queryBorrowed_scoped_to_user (E : Env) (data : Document) (userId : String)
    (q : BorrowedQuery) (nowMs : Int) :
    (∀ r ∈ queryBorrowed E data userId q nowMs, r.borrowedBy = userId) ∧
    (∀ other : Document,
      data.borrowedBooks.filter (fun r => r.borrowedBy == userId)
        = other.borrowedBooks.filter (fun r => r.borrowedBy == userId) →
      queryBorrowed E data userId q nowMs = queryBorrowed E other userId q nowMs) := by
  constructor
  · intro r hr
    rw [queryBorrowed_eq_filter] at hr
    have := (List.mem_filter.mp (List.mem_filter.mp hr).1).2
    simpa using this
  · intro other h
    rw [queryBorrowed_eq_filter, queryBorrowed_eq_filter, h]

/-- C9 witness: user `1` gets the same answer from the ledger holding only their record and
from the ledger that also holds a record of user `2`. -/
theorem queryBorrowed_scoped_to_user_witness :
    (heldDoc.borrowedBooks.filter (fun r => r.borrowedBy == "1")
      = mixedDoc.borrowedBooks.filter (fun r => r.borrowedBy == "1")) ∧
    queryBorrowed sampleEnv heldDoc "1" sampleQuery 1705000000000
      = queryBorrowed sampleEnv mixedDoc "1" sampleQuery 1705000000000 :=
  ⟨by decide,
    (queryBorrowed_scoped_to_user sampleEnv heldDoc "1" sampleQuery 1705000000000).2 mixedDoc
      (by decide)⟩

/-- C10: `queryBorrowed` equals the ledger restricted to the records of `u` that satisfy
every supplied filter (a filter is supplied when its value is a non-empty string, overdue
when it is the string `true`), in ledger order; with no filter it is exactly the records of
`u`; and applying the supplied filters in any other order gives the same list. -/
theorem queryBorrowed_meets_spec (E : Env) (data : Document) (userId : String)
    (q : BorrowedQuery) (nowMs : Int) :
    queryBorrowed E data userId q nowMs = specQueryBorrowed E data userId q nowMs ∧
    (queryBorrowed E data userId q nowMs).Sublist data.borrowedBooks ∧
    queryBorrowed E data userId ⟨none, none, none, none⟩ nowMs
      = data.borrowedBooks.filter (fun r => r.borrowedBy == userId) ∧
    (∀ ps : List (BorrowRecord → Bool), ps.Perm (suppliedFilters E q nowMs) →
      applyFilters ps (data.borrowedBooks.filter (fun r => r.borrowedBy == userId))
        = queryBorrowed E data userId q nowMs) := by
  have hspec : queryBorrowed E data userId q nowMs = specQueryBorrowed E data userId q nowMs := by
    rw [queryBorrowed_eq_filter, List.filter_filter]
    unfold specQueryBorrowed
    apply List.filter_congr
    intro r _
    exact Bool.and_comm _ _
  refine ⟨hspec, ?_, ?_, ?_⟩
  · rw [hspec]
    exact List.filter_sublist _
  · rw [queryBorrowed_eq_applyFilters]
    rfl
  · intro ps hps
    rw [queryBorrowed_eq_applyFilters]
    exact applyFilters_perm hps _

/-- C10 witness: the supplied filters of the sample query applied in reverse order. -/
theorem queryBorrowed_meets_spec_witness :
    ((suppliedFilters sampleEnv sampleQuery 1705000000000).reverse.Perm
        (suppliedFilters sampleEnv sampleQuery 1705000000000)) ∧
    applyFilters (suppliedFilters sampleEnv sampleQuery 1705000000000).reverse
        (mixedDoc.borrowedBooks.filter (fun r => r.borrowedBy == "1"))
      = queryBorrowed sampleEnv mixedDoc "1" sampleQuery 1705000000000 :=
  ⟨List.reverse_perm _,
    (queryBorrowed_meets_spec sampleEnv mixedDoc "1" sampleQuery 1705000000000).2.2.2 _
      (List.reverse_perm _)⟩

/-! ## C11: the overdue filter -/

theorem split_of_mem_nodup {α : Type} (f : α → String) {l : List α} {r : α} (hr : r ∈ l)
    (hnd : (l.map f).Nodup) :
    ∃ a b, l = a ++ r :: b ∧ (∀ y ∈ a, f y ≠ f r) ∧ (∀ y ∈ b, f y ≠ f r) := by
  obtain ⟨a, b, rfl⟩ := List.append_of_mem hr
  refine ⟨a, b, rfl, ?_, ?_⟩
  all_goals
    intro y hy heq
    rw [List.map_append, List.map_cons] at hnd
    have h2 := List.nodup_middle.mp hnd
    rw [List.nodup_cons] at h2
    apply h2.1
    rw [← heq, ← List.map_append]
    exact List.mem_map.mpr ⟨y, by simp [hy], rfl⟩

theorem mem_overdueQuery (E : Env) (d : Document) (u : String) (nowMs : Int)
    (x : BorrowRecord) :
    x ∈ queryBorrowed E d u overdueQuery nowMs ↔
      x ∈ d.borrowedBooks ∧ x.borrowedBy = u ∧ x.returned = false ∧
        isBefore (E.moment x.dueDate) (some (E.startOfDay nowMs)) = true := by
  rw [queryBorrowed_eq_filter]
  simp only [overdueQuery, categoryOk, borrowerNameOk, dueDateOk, overdueOk, List.mem_filter,
    beq_self_eq_true, ↓reduceIte, Bool.true_and, Bool.and_eq_true, Bool.not_eq_true',
    beq_iff_eq]
  tauto

/-- A `giveBack` that answers 200 for the id of the record at the split point, no earlier
record having that id: the id is non-empty, the record was open, and the saved ledger is the
old one with that record marked returned. -/
theorem giveBack_success_split {data : Document} {a : List BorrowRecord} {r : BorrowRecord}
    {b : List BorrowRecord} (nowIso : String) (hledger : data.borrowedBooks = a ++ r :: b)
    (hpre : ∀ y ∈ a, (y.id == r.id) = false)
    (hstatus : (giveBack data (some r.id) nowIso).1.status = 200) :
    r.id ≠ "" ∧ r.returned = false ∧
      ∃ saved, (giveBack data (some r.id) nowIso).2 = some saved ∧
        saved.users = data.users ∧
        saved.borrowedBooks
          = a ++ { r with returned := true, returnDate := some nowIso } :: b := by
  have hne : r.id ≠ "" := by
    intro h
    rw [h] at hstatus
    simp [giveBack, truthy] at hstatus
  have heval := giveBack_eval nowIso hne hledger hpre rfl
  cases hret : r.returned with
  | true =>
    rw [if_pos hret] at heval
    rw [heval] at hstatus
    simp at hstatus
  | false =>
    rw [if_neg (by simp [hret])] at heval
    refine ⟨hne, rfl, ?_⟩
    rw [heval]
    exact ⟨_, rfl, rfl, rfl⟩

/-- What holds of the overdue query on every document (C11 apart from record ids that
collide): for every environment, document, user `u` and record `r` of the ledger with
`borrowedBy = u`, the query `overdue=true` of `u` contains `r` if and only if
`r.returned = false` and `r.dueDate` is strictly before the start of the current day; a
record due on the current day is not contained (given that a day starts no later than its
instants); and, when the record ids of the ledger are pairwise distinct, after a giveBack of
`r.id` that answered 200 the same query on the saved document contains no record with that
id, in particular not `r`. -/
theorem overdue_query_characterised (E : Env) (d : Document) (u : String) (nowMs : Int)
    (r : BorrowRecord) (hr : r ∈ d.borrowedBooks) (hu : r.borrowedBy = u) :
    (r ∈ queryBorrowed E d u overdueQuery nowMs ↔
      r.returned = false ∧
        isBefore (E.moment r.dueDate) (some (E.startOfDay nowMs)) = true) ∧
    ((∀ t, E.startOfDay t ≤ t) → ∀ t, E.moment r.dueDate = some t →
      E.startOfDay t = E.startOfDay nowMs → r ∉ queryBorrowed E d u overdueQuery nowMs) ∧
    (DistinctRecordIds d → ∀ nowIso : String,
      (giveBack d (some r.id) nowIso).1.status = 200 →
      ∃ saved, (giveBack d (some r.id) nowIso).2 = some saved ∧
        (∀ x ∈ queryBorrowed E saved u overdueQuery nowMs, x.id ≠ r.id) ∧
        r ∉ queryBorrowed E saved u overdueQuery nowMs) := by
  refine ⟨?_, ?_, ?_⟩
  · rw [mem_overdueQuery]
    simp [hr, hu]
  · intro hlaw t ht hday hmem
    rw [mem_overdueQuery] at hmem
    have hb := hmem.2.2.2
    rw [ht] at hb
    have hle : E.startOfDay nowMs ≤ t := hday ▸ hlaw t
    simp [isBefore] at hb
    omega
  · intro hdist nowIso hstatus
    obtain ⟨a, b, hledger, ha, hb⟩ :=
      split_of_mem_nodup (fun x : BorrowRecord => x.id) hr hdist
    have hpre : ∀ y ∈ a, (y.id == r.id) = false := by
      intro y hy
      simpa using ha y hy
    obtain ⟨_, _, saved, hsaved, _, hsl⟩ := giveBack_success_split nowIso hledger hpre hstatus
    have hall : ∀ x ∈ queryBorrowed E saved u overdueQuery nowMs, x.id ≠ r.id := by
      intro x hx
      rw [mem_overdueQuery, hsl] at hx
      obtain ⟨hxm, _, hxr, _⟩ := hx
      simp only [List.mem_append, List.mem_cons] at hxm
      rcases hxm with hxa | rfl | hxb
      · exact ha x hxa
      · simp at hxr
      · exact hb x hxb
    exact ⟨saved, hsaved, hall, fun hmem => hall r hmem rfl⟩

/-- Witness of `overdue_query_characterised`: the record of the lent-out sample book, due on
2022-01-08, queried on 2024-01-11, before and after its return; and the same record due on
2024-01-11 itself. -/
theorem overdue_query_characterised_witness :
    ({ sampleRecord "r1" with dueDate := "2022-01-08" } ∈ overdueDoc.borrowedBooks ∧
      ({ sampleRecord "r1" with dueDate := "2022-01-08" } : BorrowRecord).borrowedBy = "1" ∧
      DistinctRecordIds overdueDoc ∧
      (giveBack overdueDoc (some "r1") "2024-01-11T09:00:00.000Z").1.status = 200 ∧
      (∀ t, sampleEnv.startOfDay t ≤ t) ∧
      sampleEnv.moment "2024-01-11" = some 1704931200000 ∧
      sampleEnv.startOfDay 1704931200000 = sampleEnv.startOfDay 1705000000000) ∧
    { sampleRecord "r1" with dueDate := "2022-01-08" }
      ∈ queryBorrowed sampleEnv overdueDoc "1" overdueQuery 1705000000000 ∧
    (∃ saved, (giveBack overdueDoc (some "r1") "2024-01-11T09:00:00.000Z").2 = some saved ∧
      { sampleRecord "r1" with dueDate := "2022-01-08" }
        ∉ queryBorrowed sampleEnv saved "1" overdueQuery 1705000000000) ∧
    { sampleRecord "r1" with dueDate := "2024-01-11" }
      ∉ queryBorrowed sampleEnv dueTodayDoc "1" overdueQuery 1705000000000 := by
  have hlaw : ∀ t, sampleEnv.startOfDay t ≤ t :=
    fun t => Int.ediv_mul_le t (by decide)
  have h := overdue_query_characterised sampleEnv overdueDoc "1" 1705000000000
    { sampleRecord "r1" with dueDate := "2022-01-08" } (by decide) rfl
  have h2 := overdue_query_characterised sampleEnv dueTodayDoc "1" 1705000000000
    { sampleRecord "r1" with dueDate := "2024-01-11" } (by decide) rfl
  refine ⟨⟨by decide, rfl, by decide, by decide, hlaw, by decide, by decide⟩,
    h.1.mpr (by decide), ?_, h2.2.1 hlaw 1704931200000 (by decide) (by decide)⟩
  obtain ⟨saved, hsaved, _, hnot⟩ := h.2.2 (by decide) "2024-01-11T09:00:00.000Z" (by decide)
  exact ⟨saved, hsaved, hnot⟩

/-- C11 (the code at the failing input): two borrows served in the same millisecond, one
per book and both due on 2022-01-08, give two records the same id `7`.  On 2024-01-11 the
overdue query of the user contains the second record; a giveBack of that record's id
answers 200 but with the first record (book `b1`) marked returned, and the overdue query on
the saved document still contains the second record. -/
theorem overdue_record_survives_return :
    ClockNonDecreasing sameMsBorrows ∧
    ¬ DistinctRecordIds (readData (serveAll (some twoBooksDoc) sameMsBorrows)) ∧
    secondSameMsRecord ∈ (readData (serveAll (some twoBooksDoc) sameMsBorrows)).borrowedBooks ∧
    secondSameMsRecord.borrowedBy = "1" ∧
    secondSameMsRecord ∈ queryBorrowed sampleEnv
      (readData (serveAll (some twoBooksDoc) sameMsBorrows)) "1" overdueQuery 1705000000000 ∧
    (giveBack (readData (serveAll (some twoBooksDoc) sameMsBorrows))
        (some secondSameMsRecord.id) "2024-01-11T09:00:00.000Z").1
      = ⟨200, .record (markReturned
          (recordFor sampleBook "b1" "Alice" "2022-01-08" "1" 7 "2022-01-01T09:00:00.000Z")
          "2024-01-11T09:00:00.000Z")⟩ ∧
    ∃ saved,
      (giveBack (readData (serveAll (some twoBooksDoc) sameMsBorrows))
        (some secondSameMsRecord.id) "2024-01-11T09:00:00.000Z").2 = some saved ∧
      secondSameMsRecord ∈ queryBorrowed sampleEnv saved "1" overdueQuery 1705000000000 := by
  refine ⟨by decide, by decide, by decide, rfl, by decide, by decide, _, rfl, by decide⟩

/-! ## Properties preserved by every call -/

/-- A property of documents that every saved document inherits from the loaded one is
preserved by serving any call. -/
theorem serve_preserves (P : Document → Prop)
    (hreg : ∀ data req hashed nowMs res d,
      registerUser data req hashed nowMs = (res, some d) → P data → P d)
    (hadd : ∀ data req nowMs res d, addBook data req nowMs = (res, some d) → P data → P d)
    (hbor : ∀ data req userId nowMs nowIso res d,
      borrow data req userId nowMs nowIso = (res, some d) → P data → P d)
    (hret : ∀ data borrowId nowIso res d,
      giveBack data borrowId nowIso = (res, some d) → P data → P d)
    (c : Call) (s : Store) (h : P (readData s)) : P (readData (serve s c).2) := by
  cases c with
  | register req hashed nowMs writeOk =>
    rcases commit_store s (registerUser (readData s) req hashed nowMs) writeOk with
      e | ⟨d, hd, e⟩
    · have hs : (serve s (.register req hashed nowMs writeOk)).2 = s := e
      rw [hs]; exact h
    · have hs : (serve s (.register req hashed nowMs writeOk)).2 = some d := e
      rw [hs]
      exact hreg _ _ _ _ _ d (Prod.ext rfl hd) h
  | addBook req nowMs writeOk =>
    rcases commit_store s (addBook (readData s) req nowMs) writeOk with e | ⟨d, hd, e⟩
    · have hs : (serve s (.addBook req nowMs writeOk)).2 = s := e
      rw [hs]; exact h
    · have hs : (serve s (.addBook req nowMs writeOk)).2 = some d := e
      rw [hs]
      exact hadd _ _ _ _ d (Prod.ext rfl hd) h
  | borrow req userId nowMs nowIso writeOk =>
    rcases commit_store s (borrow (readData s) req userId nowMs nowIso) writeOk with
      e | ⟨d, hd, e⟩
    · have hs : (serve s (.borrow req userId nowMs nowIso writeOk)).2 = s := e
      rw [hs]; exact h
    · have hs : (serve s (.borrow req userId nowMs nowIso writeOk)).2 = some d := e
      rw [hs]
      exact hbor _ _ _ _ _ _ d (Prod.ext rfl hd) h
  | giveBack borrowId nowIso writeOk =>
    rcases commit_store s (giveBack (readData s) borrowId nowIso) writeOk with
      e | ⟨d, hd, e⟩
    · have hs : (serve s (.giveBack borrowId nowIso writeOk)).2 = s := e
      rw [hs]; exact h
    · have hs : (serve s (.giveBack borrowId nowIso writeOk)).2 = some d := e
      rw [hs]
      exact hret _ _ _ _ d (Prod.ext rfl hd) h

theorem borrow_saved_users {data : Document} {req : BorrowRequest} {userId : String}
    {nowMs : Nat} {nowIso : String} {res : Response} {d : Document}
    (h : borrow data req userId nowMs nowIso = (res, some d)) : d.users = data.users := by
  obtain ⟨_, _, _, _, _, _, _, _, _, rfl⟩ := borrow_saved h
  rfl

theorem giveBack_saved_users {data : Document} {borrowId : Option String} {nowIso : String}
    {res : Response} {d : Document} (h : giveBack data borrowId nowIso = (res, some d)) :
    d.users = data.users := by
  obtain ⟨_, _, _, _, _, hcase⟩ := giveBack_saved h
  rcases hcase with ⟨_, rfl⟩ | ⟨_, _, _, _, _, _, rfl⟩ <;> rfl

theorem addBook_saved_users {data : Document} {req : AddBookRequest} {nowMs : Nat}
    {res : Response} {d : Document} (h : addBook data req nowMs = (res, some d)) :
    d.users = data.users := by
  obtain ⟨_, _, rfl⟩ := addBook_saved h
  rfl

/-! ## C12: registration and usernames -/

theorem registerUser_eval (data : Document) {username password name : String}
    (hashed : String) (nowMs : Nat) (hu : username ≠ "") (hp : password ≠ "")
    (hn : name ≠ "") :
    registerUser data ⟨some username, some password, some name⟩ hashed nowMs
      = if data.users.any (fun user => user.username == username) = true then
          (⟨400, .message "Username already exists"⟩, none)
        else
          (⟨201, .message "User registered successfully"⟩,
            some { users := data.users ++ [⟨toString nowMs, username, hashed, name⟩],
                   books := data.books, borrowedBooks := data.borrowedBooks }) := by
  unfold registerUser
  simp [truthy, hu, hp, hn]

/-- Every document `registerUser` saves: one user appended whose username no earlier user
has. -/
theorem registerUser_saved_fresh {data : Document} {req : RegisterRequest} {hashed : String}
    {nowMs : Nat} {res : Response} {d : Document}
    (h : registerUser data req hashed nowMs = (res, some d)) :
    ∃ user, (∀ u ∈ data.users, u.username ≠ user.username) ∧
      d = { data with users := data.users ++ [user] } := by
  unfold registerUser at h
  split at h
  · simp at h
  · split at h
    · split at h
      · simp at h
      · rename_i hany
        simp only [Prod.mk.injEq, Option.some.injEq] at h
        refine ⟨_, ?_, h.2.symm⟩
        intro u hu heq
        apply hany
        simp only [List.any_eq_true, beq_iff_eq]
        exact ⟨u, hu, heq⟩
    · simp at h

theorem distinctUsernames_serve (c : Call) (s : Store)
    (h : DistinctUsernames (readData s)) : DistinctUsernames (readData (serve s c).2) := by
  refine serve_preserves DistinctUsernames ?_ ?_ ?_ ?_ c s h
  · intro data req hashed nowMs res d hd hP
    obtain ⟨user, hfresh, rfl⟩ := registerUser_saved_fresh hd
    unfold DistinctUsernames at hP ⊢
    simp only [List.map_append, List.map_cons, List.map_nil]
    rw [List.nodup_append]
    refine ⟨hP, by simp, ?_⟩
    intro a ha hb
    simp only [List.mem_singleton] at hb
    obtain ⟨u, hu, rfl⟩ := List.mem_map.mp ha
    exact hfresh u hu hb
  · intro data req nowMs res d hd hP
    unfold DistinctUsernames at hP ⊢
    rw [addBook_saved_users hd]; exact hP
  · intro data req userId nowMs nowIso res d hd hP
    unfold DistinctUsernames at hP ⊢
    rw [borrow_saved_users hd]; exact hP
  · intro data borrowId nowIso res d hd hP
    unfold DistinctUsernames at hP ⊢
    rw [giveBack_saved_users hd]; exact hP

/-- C12: for every store and every non-empty username, password and name, `registerUser`
answers 201 and saves the document with exactly one user appended, carrying that username,
when no user has the username; it answers Conflict (400 "Username already exists"), saves
nothing and leaves the store unchanged when some user has it.  Hence a second registration
of the username right after a first one that was saved answers Conflict, and pairwise
distinct usernames stay pairwise distinct after any sequence of serialized calls. -/
theorem register_unique_username (s : Store) (username password name hashed : String)
    (nowMs : Nat) (writeOk : Bool) (hu : username ≠ "") (hp : password ≠ "")
    (hn : name ≠ "") :
    ((∀ u ∈ (readData s).users, u.username ≠ username) →
      registerUser (readData s) ⟨some username, some password, some name⟩ hashed nowMs
        = (⟨201, .message "User registered successfully"⟩,
            some { users := (readData s).users ++ [⟨toString nowMs, username, hashed, name⟩],
                   books := (readData s).books,
                   borrowedBooks := (readData s).borrowedBooks }) ∧
      postRegister s ⟨some username, some password, some name⟩ hashed nowMs writeOk
        = (⟨201, .message "User registered successfully"⟩,
            if writeOk = true then
              some { users := (readData s).users ++ [⟨toString nowMs, username, hashed, name⟩],
                     books := (readData s).books,
                     borrowedBooks := (readData s).borrowedBooks }
            else s)) ∧
    ((∃ u ∈ (readData s).users, u.username = username) →
      registerUser (readData s) ⟨some username, some password, some name⟩ hashed nowMs
        = (⟨400, .message "Username already exists"⟩, none) ∧
      postRegister s ⟨some username, some password, some name⟩ hashed nowMs writeOk
        = (⟨400, .message "Username already exists"⟩, s)) ∧
    ((∀ u ∈ (readData s).users, u.username ≠ username) →
      ∀ (password2 name2 hashed2 : String) (nowMs2 : Nat), password2 ≠ "" → name2 ≠ "" →
      postRegister
          (postRegister s ⟨some username, some password, some name⟩ hashed nowMs true).2
          ⟨some username, some password2, some name2⟩ hashed2 nowMs2 writeOk
        = (⟨400, .message "Username already exists"⟩,
            (postRegister s ⟨some username, some password, some name⟩ hashed nowMs true).2)) ∧
    (DistinctUsernames (readData s) →
      ∀ cs : List Call, DistinctUsernames (readData (serveAll s cs))) := by
  have hfresh : ∀ s0 : Store, (∀ u ∈ (readData s0).users, u.username ≠ username) →
      registerUser (readData s0) ⟨some username, some password, some name⟩ hashed nowMs
        = (⟨201, .message "User registered successfully"⟩,
            some { users := (readData s0).users ++ [⟨toString nowMs, username, hashed, name⟩],
                   books := (readData s0).books,
                   borrowedBooks := (readData s0).borrowedBooks }) := by
    intro s0 h
    rw [registerUser_eval _ hashed nowMs hu hp hn, if_neg]
    simp only [List.any_eq_true, beq_iff_eq, not_exists, not_and]
    exact h
  have htaken : ∀ (s0 : Store) (p2 n2 h2 : String) (t2 : Nat), p2 ≠ "" → n2 ≠ "" →
      (∃ u ∈ (readData s0).users, u.username = username) →
      registerUser (readData s0) ⟨some username, some p2, some n2⟩ h2 t2
        = (⟨400, .message "Username already exists"⟩, none) := by
    intro s0 p2 n2 h2 t2 hp2 hn2 h
    rw [registerUser_eval _ h2 t2 hu hp2 hn2, if_pos]
    simp only [List.any_eq_true, beq_iff_eq]
    exact h
  refine ⟨?_, ?_, ?_, ?_⟩
  · intro h
    refine ⟨hfresh s h, ?_⟩
    unfold postRegister
    rw [hfresh s h, commit_some]
  · intro h
    refine ⟨htaken s password name hashed nowMs hp hn h, ?_⟩
    unfold postRegister
    rw [htaken s password name hashed nowMs hp hn h, commit_none]
  · intro h password2 name2 hashed2 nowMs2 hp2 hn2
    have hstore := congrArg Prod.snd
      (show postRegister s ⟨some username, some password, some name⟩ hashed nowMs true
        = commit s (registerUser (readData s) ⟨some username, some password, some name⟩
            hashed nowMs) true from rfl)
    rw [hfresh s h, commit_some] at hstore
    simp only [↓reduceIte] at hstore
    have hmem : ∃ u ∈ (readData (postRegister s ⟨some username, some password, some name⟩
        hashed nowMs true).2).users, u.username = username := by
      rw [hstore]
      exact ⟨⟨toString nowMs, username, hashed, name⟩, by simp [readData], rfl⟩
    generalize (postRegister s ⟨some username, some password, some name⟩ hashed nowMs
      true).2 = s2 at hmem ⊢
    have h2 := htaken s2 password2 name2 hashed2 nowMs2 hp2 hn2 hmem
    unfold postRegister
    rw [h2, commit_none]
  · intro h cs
    exact serveAll_preserves DistinctUsernames cs s
      (fun c _ s0 h0 => distinctUsernames_serve c s0 h0) h

/-- C12 witness: registering `alice` on the sample document, twice in a row, and usernames
after the mixed run. -/
theorem register_unique_username_witness :
    ("alice" ≠ "" ∧ "secret" ≠ "" ∧ "Alice" ≠ "" ∧
      (∀ u ∈ (readData (some sampleDoc)).users, u.username ≠ "alice") ∧
      (∃ u ∈ (readData (some sampleDoc)).users, u.username = "testuser") ∧
      DistinctUsernames (readData (some sampleDoc))) ∧
    (postRegister (some sampleDoc) aliceRequest "hash1" 3 true).1
      = ⟨201, .message "User registered successfully"⟩ ∧
    (postRegister (some sampleDoc) ⟨some "testuser", some "secret", some "Alice"⟩ "hash1" 3
        true)
      = (⟨400, .message "Username already exists"⟩, some sampleDoc) ∧
    (postRegister (postRegister (some sampleDoc) aliceRequest "hash1" 3 true).2
        ⟨some "alice", some "other", some "Alice B"⟩ "hash2" 4 true).1
      = ⟨400, .message "Username already exists"⟩ ∧
    DistinctUsernames (readData (serveAll (some sampleDoc) mixedCalls)) := by
  have h := register_unique_username (some sampleDoc) "alice" "secret" "Alice" "hash1" 3 true
    (by decide) (by decide) (by decide)
  have h2 := register_unique_username (some sampleDoc) "testuser" "secret" "Alice" "hash1" 3
    true (by decide) (by decide) (by decide)
  refine ⟨by decide, ?_, (h2.2.1 (by decide)).2, ?_, h.2.2.2 (by decide) mixedCalls⟩
  · exact congrArg Prod.fst (h.1 (by decide)).2
  · exact congrArg Prod.fst (h.2.2.1 (by decide) "other" "Alice B" "hash2" 4 (by decide)
      (by decide))

/-! ## C14: `returnDate` is present exactly on returned records -/

/-- The ledger `borrow` saves: the loaded ledger with one record appended that is not
returned and has no `returnDate`. -/
theorem borrow_saved_ledger {data : Document} {req : BorrowRequest} {userId : String}
    {nowMs : Nat} {nowIso : String} {res : Response} {d : Document}
    (h : borrow data req userId nowMs nowIso = (res, some d)) :
    ∃ record, d.borrowedBooks = data.borrowedBooks ++ [record] ∧ record.returned = false ∧
      record.returnDate = none ∧ record.id = toString nowMs := by
  unfold borrow at h
  split at h
  · simp at h
  · split at h
    · split at h
      · simp at h
      · split at h
        · simp at h
        · split at h
          · simp at h
          · simp only [Prod.mk.injEq, Option.some.injEq] at h
            rw [← h.2]
            exact ⟨_, rfl, rfl, rfl, rfl⟩
    · simp at h

/-- The ledger `giveBack` saves: the loaded ledger with one open record given
`returned = true` and a `returnDate`, nothing else changed. -/
theorem giveBack_saved_ledger {data : Document} {borrowId : Option String} {nowIso : String}
    {res : Response} {d : Document} (h : giveBack data borrowId nowIso = (res, some d)) :
    ∃ a r b, data.borrowedBooks = a ++ r :: b ∧ r.returned = false ∧
      d.borrowedBooks = a ++ { r with returned := true, returnDate := some nowIso } :: b := by
  obtain ⟨a, r, b, hledger, hret, hcase⟩ := giveBack_saved h
  refine ⟨a, r, b, hledger, hret, ?_⟩
  rcases hcase with ⟨_, rfl⟩ | ⟨_, _, _, _, _, _, rfl⟩ <;> rfl

theorem addBook_saved_ledger {data : Document} {req : AddBookRequest} {nowMs : Nat}
    {res : Response} {d : Document} (h : addBook data req nowMs = (res, some d)) :
    d.borrowedBooks = data.borrowedBooks := by
  obtain ⟨_, _, rfl⟩ := addBook_saved h
  rfl

theorem registerUser_saved_ledger {data : Document} {req : RegisterRequest} {hashed : String}
    {nowMs : Nat} {res : Response} {d : Document}
    (h : registerUser data req hashed nowMs = (res, some d)) :
    d.borrowedBooks = data.borrowedBooks ∧ d.books = data.books := by
  obtain ⟨_, rfl⟩ := registerUser_saved h
  exact ⟨rfl, rfl⟩

theorem returnDateMatches_serve (c : Call) (s : Store)
    (h : ReturnDateMatches (readData s)) : ReturnDateMatches (readData (serve s c).2) := by
  refine serve_preserves ReturnDateMatches ?_ ?_ ?_ ?_ c s h
  · intro data req hashed nowMs res d hd hP
    unfold ReturnDateMatches at hP ⊢
    rw [(registerUser_saved_ledger hd).1]; exact hP
  · intro data req nowMs res d hd hP
    unfold ReturnDateMatches at hP ⊢
    rw [addBook_saved_ledger hd]; exact hP
  · intro data req userId nowMs nowIso res d hd hP
    obtain ⟨record, hl, hret, hdate, _⟩ := borrow_saved_ledger hd
    unfold ReturnDateMatches at hP ⊢
    rw [hl]
    intro r hr
    rcases List.mem_append.mp hr with hr | hr
    · exact hP r hr
    · rw [List.mem_singleton] at hr
      subst hr
      simp [hret, hdate]
  · intro data borrowId nowIso res d hd hP
    obtain ⟨a, r0, b, hl, _, hl2⟩ := giveBack_saved_ledger hd
    unfold ReturnDateMatches at hP ⊢
    rw [hl2]
    rw [hl] at hP
    intro r hr
    simp only [List.mem_append, List.mem_cons] at hr
    rcases hr with hr | rfl | hr
    · exact hP r (by simp [hr])
    · simp
    · exact hP r (by simp [hr])

/-- C14: starting from a store with an empty ledger, after any finite sequence of serialized
calls (borrow and giveBack, and register and addBook as well) every record of the ledger has
a `returnDate` if and only if `returned = true`.  Every ledger `borrow` saves is the loaded
one plus a record with `returned = false` and no `returnDate`; every ledger `giveBack` saves
is the loaded one with one open record given `returned = true` and a `returnDate` together;
`registerUser` and `addBook` save the ledger unchanged. -/
theorem returnDate_iff_returned (s : Store) (cs : List Call)
    (hledger : (readData s).borrowedBooks = []) :
    ReturnDateMatches (readData (serveAll s cs)) ∧
    (∀ data req userId nowMs nowIso res d,
      borrow data req userId nowMs nowIso = (res, some d) →
      ∃ record, d.borrowedBooks = data.borrowedBooks ++ [record] ∧
        record.returned = false ∧ record.returnDate = none) ∧
    (∀ data borrowId nowIso res d, giveBack data borrowId nowIso = (res, some d) →
      ∃ a r b, data.borrowedBooks = a ++ r :: b ∧ r.returned = false ∧
        d.borrowedBooks = a ++ { r with returned := true, returnDate := some nowIso } :: b) ∧
    (∀ data req hashed nowMs res d, registerUser data req hashed nowMs = (res, some d) →
      d.borrowedBooks = data.borrowedBooks) ∧
    (∀ data req nowMs res d, addBook data req nowMs = (res, some d) →
      d.borrowedBooks = data.borrowedBooks) := by
  refine ⟨?_, ?_, ?_, ?_, ?_⟩
  · refine serveAll_preserves ReturnDateMatches cs s
      (fun c _ s0 h0 => returnDateMatches_serve c s0 h0) ?_
    intro r hr
    rw [hledger] at hr
    simp at hr
  · intro data req userId nowMs nowIso res d hd
    obtain ⟨record, h1, h2, h3, _⟩ := borrow_saved_ledger hd
    exact ⟨record, h1, h2, h3⟩
  · intro data borrowId nowIso res d hd
    exact giveBack_saved_ledger hd
  · intro data req hashed nowMs res d hd
    exact (registerUser_saved_ledger hd).1
  · intro data req nowMs res d hd
    exact addBook_saved_ledger hd

/-- C14 witness: the sample document run through the mixed calls. -/
theorem returnDate_iff_returned_witness :
    (readData (some sampleDoc)).borrowedBooks = [] ∧
    ReturnDateMatches (readData (serveAll (some sampleDoc) mixedCalls)) :=
  ⟨rfl, (returnDate_iff_returned (some sampleDoc) mixedCalls rfl).1⟩

/-! ## C13: ids -/

theorem ids_prefix_serve (c : Call) (s : Store) :
    List.IsPrefix ((readData s).users.map (fun u => u.id))
      ((readData (serve s c).2).users.map (fun u => u.id)) ∧
    List.IsPrefix ((readData s).books.map (fun b => b.id))
      ((readData (serve s c).2).books.map (fun b => b.id)) ∧
    List.IsPrefix ((readData s).borrowedBooks.map (fun r => r.id))
      ((readData (serve s c).2).borrowedBooks.map (fun r => r.id)) := by
  refine serve_preserves
    (fun d => List.IsPrefix ((readData s).users.map (fun u => u.id))
        (d.users.map (fun u => u.id)) ∧
      List.IsPrefix ((readData s).books.map (fun b => b.id)) (d.books.map (fun b => b.id)) ∧
      List.IsPrefix ((readData s).borrowedBooks.map (fun r => r.id))
        (d.borrowedBooks.map (fun r => r.id)))
    ?_ ?_ ?_ ?_ c s ⟨List.prefix_refl _, List.prefix_refl _, List.prefix_refl _⟩
  · intro data req hashed nowMs res d hd hP
    obtain ⟨user, rfl⟩ := registerUser_saved hd
    refine ⟨hP.1.trans ?_, hP.2.1, hP.2.2⟩
    simp
  · intro data req nowMs res d hd hP
    obtain ⟨book, _, rfl⟩ := addBook_saved hd
    refine ⟨hP.1, hP.2.1.trans ?_, hP.2.2⟩
    simp
  · intro data req userId nowMs nowIso res d hd hP
    obtain ⟨pre, book, post, record, hbooks, _, _, _, _, rfl⟩ := borrow_saved hd
    refine ⟨hP.1, ?_, hP.2.2.trans ?_⟩
    · have := hP.2.1
      rw [hbooks] at this
      simpa using this
    · simp
  · intro data borrowId nowIso res d hd hP
    obtain ⟨a, r, b, hledger, _, hcase⟩ := giveBack_saved hd
    have hl := hP.2.2
    rw [hledger] at hl
    rcases hcase with ⟨_, rfl⟩ | ⟨pre, book, post, hbooks, _, _, rfl⟩
    · exact ⟨hP.1, hP.2.1, by simpa using hl⟩
    · have hb := hP.2.1
      rw [hbooks] at hb
      exact ⟨hP.1, by simpa using hb, by simpa using hl⟩

/-- C13 (the code at the failing input): starting from the empty document, a sequence of
calls whose clock values never decrease, with consecutive calls served in the same
millisecond, leaves two users with the same id, two books with the same id and two borrow
records with the same id.  What does hold for every call: the ids already in a collection
stay where they are (the old id list is a prefix of the new one). -/
theorem ids_collide_within_a_millisecond :
    (ClockNonDecreasing collidingCalls ∧
      ¬ DistinctUserIds (readData (serveAll (some emptyDocument) collidingCalls)) ∧
      ¬ DistinctBookIds (readData (serveAll (some emptyDocument) collidingCalls)) ∧
      ¬ DistinctRecordIds (readData (serveAll (some emptyDocument) collidingCalls))) ∧
    (∀ (s : Store) (c : Call),
      List.IsPrefix ((readData s).users.map (fun u => u.id))
        ((readData (serve s c).2).users.map (fun u => u.id)) ∧
      List.IsPrefix ((readData s).books.map (fun b => b.id))
        ((readData (serve s c).2).books.map (fun b => b.id)) ∧
      List.IsPrefix ((readData s).borrowedBooks.map (fun r => r.id))
        ((readData (serve s c).2).borrowedBooks.map (fun r => r.id))) := by
  refine ⟨by decide, fun s c => ids_prefix_serve c s⟩

/-! ## C15: who changes availability -/

theorem login_no_save (A : Auth) (data : Document) (req : LoginRequest) :
    (login A data req).2 = none := by
  unfold login
  split
  · rfl
  · split
    · split
      · rfl
      · split <;> rfl
    · rfl

theorem addBook_eval (data : Document) {title author category : String} (nowMs : Nat)
    (ht : title ≠ "") (ha : author ≠ "") (hc : category ≠ "") :
    addBook data ⟨some title, some author, some category⟩ nowMs
      = (⟨201, .book ⟨toString nowMs, title, author, category, true⟩⟩,
          some { users := data.users,
                 books := data.books ++ [⟨toString nowMs, title, author, category, true⟩],
                 borrowedBooks := data.borrowedBooks }) := by
  unfold addBook
  simp [truthy, ht, ha, hc]

/-- Every document `addBook` saves: the loaded one plus one available book with the
request's title, author and category. -/
theorem addBook_saved_book {data : Document} {req : AddBookRequest} {nowMs : Nat}
    {res : Response} {d : Document} (h : addBook data req nowMs = (res, some d)) :
    ∃ title author category, req = ⟨some title, some author, some category⟩ ∧
      d = { data with
            books := data.books ++ [⟨toString nowMs, title, author, category, true⟩] } := by
  unfold addBook at h
  split at h
  · simp at h
  · split at h
    · rename_i title author category hreq1 hreq2 hreq3
      simp only [Prod.mk.injEq, Option.some.injEq] at h
      refine ⟨title, author, category, ?_, h.2.symm⟩
      cases req
      simp_all
    · simp at h

theorem addBook_rejected (data : Document) (req : AddBookRequest) (nowMs : Nat)
    (h : ¬ ∃ title author category, req = ⟨some title, some author, some category⟩ ∧
      title ≠ "" ∧ author ≠ "" ∧ category ≠ "") :
    addBook data req nowMs
      = (⟨400, .message "Title, author, and category are required"⟩, none) := by
  obtain ⟨title, author, category⟩ := req
  unfold addBook
  rw [if_pos]
  cases title with
  | none => simp [truthy]
  | some t =>
    cases author with
    | none => simp [truthy]
    | some a =>
      cases category with
      | none => simp [truthy]
      | some c =>
        by_contra hne
        apply h
        simp only [truthy, Bool.or_eq_true, Bool.not_eq_true', bne_eq_false_iff_eq, not_or] at hne
        exact ⟨t, a, c, rfl, hne.1.1, hne.1.2, hne.2⟩

/-- C15 (amended): for every store and every input, register, login, listBooks,
listCategories and queryBorrowed leave the catalog as it is (the four read-only handlers
never reach `writeData` and leave the whole store unchanged); addBook leaves every existing
book unchanged: a request whose title, author and category are non-empty is answered 201
and, when its write succeeds, appends exactly one book with `available = true` and the
request's title, author and category (the store is untouched when the write fails); every
other request is answered 400 and appends nothing, the store staying as it is. -/
theorem only_lending_changes_availability (s : Store) (writeOk : Bool) :
    (∀ req hashed nowMs,
      (readData (postRegister s req hashed nowMs writeOk).2).books = (readData s).books) ∧
    (∀ A req, (login A (readData s) req).2 = none ∧ (postLogin A s req writeOk).2 = s) ∧
    (∀ category,
      (listBooks (readData s) category).2 = none ∧ (getBooks s category writeOk).2 = s) ∧
    ((listCategories (readData s)).2 = none ∧ (getCategories s writeOk).2 = s) ∧
    (∀ E userId q nowMs,
      (listBorrowed E (readData s) userId q nowMs).2 = none ∧
      (getBorrowedStore E s userId q nowMs writeOk).2 = s) ∧
    (∀ req nowMs,
      (¬ ∃ title author category, req = ⟨some title, some author, some category⟩ ∧
        title ≠ "" ∧ author ≠ "" ∧ category ≠ "") →
      postBooks s req nowMs writeOk
        = (⟨400, .message "Title, author, and category are required"⟩, s)) ∧
    (∀ (title author category : String) (nowMs : Nat),
      title ≠ "" → author ≠ "" → category ≠ "" →
      postBooks s ⟨some title, some author, some category⟩ nowMs writeOk
        = (⟨201, .book ⟨toString nowMs, title, author, category, true⟩⟩,
            if writeOk = true then
              some { users := (readData s).users,
                     books := (readData s).books ++
                      [⟨toString nowMs, title, author, category, true⟩],
                     borrowedBooks := (readData s).borrowedBooks }
            else s)) := by
  refine ⟨?_, ?_, ?_, ?_, ?_, ?_, ?_⟩
  · intro req hashed nowMs
    rcases commit_store s (registerUser (readData s) req hashed nowMs) writeOk with
      e | ⟨d, hd, e⟩
    · have hs : (postRegister s req hashed nowMs writeOk).2 = s := e
      rw [hs]
    · have hs : (postRegister s req hashed nowMs writeOk).2 = some d := e
      rw [hs]
      have hb : registerUser (readData s) req hashed nowMs
          = ((registerUser (readData s) req hashed nowMs).1, some d) := Prod.ext rfl hd
      exact (registerUser_saved_ledger hb).2
  · intro A req
    refine ⟨login_no_save A _ req, ?_⟩
    unfold postLogin commit
    rw [login_no_save]
  · intro category
    exact ⟨rfl, rfl⟩
  · exact ⟨rfl, rfl⟩
  · intro E userId q nowMs
    exact ⟨rfl, rfl⟩
  · intro req nowMs h
    unfold postBooks
    rw [addBook_rejected _ req nowMs h, commit_none]
  · intro title author category nowMs ht ha hc
    unfold postBooks
    rw [addBook_eval _ nowMs ht ha hc, commit_some]

/-- C15 witness: adding a book to the lent-out sample catalog, and a request with an empty
title. -/
theorem only_lending_changes_availability_witness :
    ("Emma" ≠ "" ∧ "Jane Austen" ≠ "" ∧ "Fiction" ≠ "" ∧
      ¬ ∃ title author category,
        (⟨some "", some "Jane Austen", some "Fiction"⟩ : AddBookRequest)
          = ⟨some title, some author, some category⟩ ∧
        title ≠ "" ∧ author ≠ "" ∧ category ≠ "") ∧
    postBooks (some heldDoc) ⟨some "Emma", some "Jane Austen", some "Fiction"⟩ 7 true
      = (⟨201, .book ⟨"7", "Emma", "Jane Austen", "Fiction", true⟩⟩,
          some { users := heldDoc.users,
                 books := heldDoc.books ++ [⟨"7", "Emma", "Jane Austen", "Fiction", true⟩],
                 borrowedBooks := heldDoc.borrowedBooks }) ∧
    postBooks (some heldDoc) ⟨some "", some "Jane Austen", some "Fiction"⟩ 7 true
      = (⟨400, .message "Title, author, and category are required"⟩, some heldDoc) := by
  have hrej : ¬ ∃ title author category,
      (⟨some "", some "Jane Austen", some "Fiction"⟩ : AddBookRequest)
        = ⟨some title, some author, some category⟩ ∧
      title ≠ "" ∧ author ≠ "" ∧ category ≠ "" := by
    rintro ⟨t, a, c, h, ht, -, -⟩
    simp only [AddBookRequest.mk.injEq, Option.some.injEq] at h
    exact ht h.1.symm
  refine ⟨⟨by decide, by decide, by decide, hrej⟩, ?_, ?_⟩
  · exact (only_lending_changes_availability (some heldDoc) true).2.2.2.2.2.2 "Emma"
      "Jane Austen" "Fiction" 7 (by decide) (by decide) (by decide)
  · exact (only_lending_changes_availability (some heldDoc) true).2.2.2.2.2.1 _ 7 hrej

/-- C15 counterexample: an addBook request whose title is the empty string is answered 400
and appends no book. -/
theorem addBook_rejected_counterexample :
    postBooks (some heldDoc) ⟨some "", some "Jane Austen", some "Fiction"⟩ 7 true
      = (⟨400, .message "Title, author, and category are required"⟩, some heldDoc) ∧
    (readData (postBooks (some heldDoc) ⟨some "", some "Jane Austen", some "Fiction"⟩ 7
      true).2).books = (readData (some heldDoc)).books := by
  decide

/-! ## C16: the category list -/

theorem mem_firstOccurrences (c : String) :
    ∀ l : List String, c ∈ firstOccurrences l ↔ c ∈ l
  | [] => by simp [firstOccurrences]
  | a :: as => by
    have ih := mem_firstOccurrences c as
    by_cases hca : c = a
    · simp [firstOccurrences, hca]
    · simp [firstOccurrences, hca, List.mem_filter, ih]

theorem nodup_firstOccurrences : ∀ l : List String, (firstOccurrences l).Nodup
  | [] => by simp [firstOccurrences]
  | a :: as => by
    have ih := nodup_firstOccurrences as
    simp only [firstOccurrences, List.nodup_cons, List.mem_filter, bne_self_eq_false,
      Bool.false_eq_true, and_false, not_false_eq_true, true_and]
    exact ih.filter _

theorem sublist_firstOccurrences : ∀ l : List String, (firstOccurrences l).Sublist l
  | [] => by simp [firstOccurrences]
  | a :: as => by
    simp only [firstOccurrences]
    exact List.Sublist.cons₂ a ((List.filter_sublist _).trans (sublist_firstOccurrences as))

theorem uniqueValues_fold (l : List String) :
    ∀ seen : List String,
      l.foldl (fun seen x => if seen.contains x then seen else seen ++ [x]) seen
        = seen ++ (firstOccurrences l).filter (fun x => !seen.contains x) := by
  induction l with
  | nil => intro seen; simp [firstOccurrences]
  | cons a as ih =>
    intro seen
    rw [List.foldl_cons]
    by_cases ha : seen.contains a = true
    · rw [if_pos ha, ih seen]
      congr 1
      simp only [firstOccurrences, List.filter_cons, ha, Bool.not_true, Bool.false_eq_true,
        ↓reduceIte, List.filter_filter]
      apply List.filter_congr
      intro x _
      by_cases hx : x = a
      · subst hx
        have hmem : x ∈ seen := by simpa using ha
        simp [hmem]
      · simp [hx]
    · rw [if_neg ha, ih (seen ++ [a])]
      have ha2 : seen.contains a = false := by simpa using ha
      simp only [firstOccurrences, List.filter_cons, ha2, Bool.not_false, ↓reduceIte,
        List.filter_filter, List.append_assoc, List.singleton_append]
      congr 2
      apply List.filter_congr
      intro x _
      by_cases hx : x = a
      · subst hx; simp
      · simp [hx, Bool.and_comm]

theorem uniqueValues_eq_firstOccurrences (l : List String) :
    uniqueValues l = firstOccurrences l := by
  unfold uniqueValues
  rw [uniqueValues_fold]
  simp

/-- C16: for every Books collection, `listCategories` answers 200 with a list that has no
duplicates, whose members are exactly the categories occurring among the books, and that
equals the list of book categories with every later repeat removed (so the categories stand
in the order of their first occurrence); it saves nothing. -/
theorem listCategories_first_occurrences (data : Document) :
    listCategories data
      = (⟨200, .categories (firstOccurrences (data.books.map (fun b => b.category)))⟩,
          none) ∧
    (firstOccurrences (data.books.map (fun b => b.category))).Nodup ∧
    (∀ c, c ∈ firstOccurrences (data.books.map (fun b => b.category)) ↔
      ∃ b ∈ data.books, b.category = c) ∧
    (firstOccurrences (data.books.map (fun b => b.category))).Sublist
      (data.books.map (fun b => b.category)) := by
  refine ⟨?_, nodup_firstOccurrences _, ?_, sublist_firstOccurrences _⟩
  · unfold listCategories
    rw [uniqueValues_eq_firstOccurrences]
  · intro c
    rw [mem_firstOccurrences, List.mem_map]

/-! ## C17: listing the books -/

/-- C17 (amended): for every document and every category filter in the request, present
or not, listing the books answers 200 with every book in catalog order and saves nothing;
`GET /api/books` does not read the query. -/
theorem listBooks_ignores_filter (data : Document) (category : Option String) :
    listBooks data category = (⟨200, .books data.books⟩, none) ∧
    listBooks data category = listBooks data none ∧
    specListBooks data none = data.books := by
  exact ⟨rfl, rfl, rfl⟩

/-- C17 counterexample: with the filter `Science` the handler answers with both books of
the catalog, the fiction book included, not with the books whose category is `Science`. -/
theorem listBooks_filter_counterexample :
    (listBooks twoCategoriesDoc (some "Science")).1
      = ⟨200, .books twoCategoriesDoc.books⟩ ∧
    (listBooks twoCategoriesDoc (some "Science")).1
      ≠ ⟨200, .books (specListBooks twoCategoriesDoc (some "Science"))⟩ ∧
    sampleBook ∈ twoCategoriesDoc.books ∧ sampleBook.category ≠ "Science" ∧
    sampleBook ∉ specListBooks twoCategoriesDoc (some "Science") := by
  decide

/-! ## C18: loading the document -/

theorem borrow_emptyDocument (req : BorrowRequest) (userId : String) (nowMs : Nat)
    (nowIso : String) :
    borrow emptyDocument req userId nowMs nowIso
        = (⟨400, .message "Book ID, borrower name, and due date are required"⟩, none) ∨
      borrow emptyDocument req userId nowMs nowIso
        = (⟨404, .message "Book not found"⟩, none) := by
  obtain ⟨bookId, borrowerName, dueDate⟩ := req
  unfold borrow
  split
  · left; rfl
  · right
    rename_i h
    cases bookId <;> cases borrowerName <;> cases dueDate <;>
      simp [truthy, findIndex, emptyDocument] at h ⊢

theorem giveBack_emptyDocument (borrowId : Option String) (nowIso : String) :
    giveBack emptyDocument borrowId nowIso
        = (⟨400, .message "Borrow ID is required"⟩, none) ∨
      giveBack emptyDocument borrowId nowIso
        = (⟨404, .message "Borrowed book record not found"⟩, none) := by
  unfold giveBack
  split
  · left; rfl
  · right
    rename_i h
    cases borrowId <;> simp [truthy, findIndex, emptyDocument] at h ⊢

theorem registerUser_emptyDocument (req : RegisterRequest) (hashed : String) (nowMs : Nat) :
    registerUser emptyDocument req hashed nowMs
        = (⟨400, .message "All fields are required"⟩, none) ∨
      (registerUser emptyDocument req hashed nowMs).1
        = ⟨201, .message "User registered successfully"⟩ := by
  obtain ⟨username, password, name⟩ := req
  unfold registerUser
  split
  · left; rfl
  · right
    rename_i h
    cases username <;> cases password <;> cases name <;>
      simp [truthy, emptyDocument] at h ⊢

theorem addBook_emptyDocument (req : AddBookRequest) (nowMs : Nat) :
    addBook emptyDocument req nowMs
        = (⟨400, .message "Title, author, and category are required"⟩, none) ∨
      (addBook emptyDocument req nowMs).1.status = 201 := by
  obtain ⟨title, author, category⟩ := req
  unfold addBook
  split
  · left; rfl
  · right
    rename_i h
    cases title <;> cases author <;> cases category <;> simp [truthy] at h ⊢

theorem login_emptyDocument (A : Auth) (req : LoginRequest) :
    login A emptyDocument req
        = (⟨400, .message "Username and password are required"⟩, none) ∨
      login A emptyDocument req = (⟨401, .message "Invalid credentials"⟩, none) := by
  obtain ⟨username, password⟩ := req
  unfold login
  split
  · left; rfl
  · right
    rename_i h
    cases username <;> cases password <;> simp [truthy, emptyDocument] at h ⊢

/-- C18 (amended): `readData` never fails.  When the backing file is missing or corrupt it
returns the empty Document (three empty lists); otherwise it returns the stored JSON value
as it is, so the result has the three list collections exactly when the file is missing or
corrupt or the stored value has them, which every document written by the operations does.
Every operation run on the empty Document completes with a response: register 400 or 201,
login 400 or 401, addBook 400 or 201, borrow 400 or 404, giveBack 400 or 404, and the three
listings 200 with an empty list. -/
theorem readData_degrades_to_empty :
    (readDataJson .missing = encodeDocument emptyDocument ∧
      readDataJson .corrupt = encodeDocument emptyDocument ∧
      ∀ v, readDataJson (.json v) = v) ∧
    (∀ f, hasCollections (readDataJson f) = true ↔
      (readJson f = none ∨ ∃ v, f = .json v ∧ hasCollections v = true)) ∧
    (∀ s : Store, readDataJson (fileOf s) = encodeDocument (readData s) ∧
      hasCollections (readDataJson (fileOf s)) = true) ∧
    (readData none = emptyDocument ∧
      (∀ req hashed nowMs,
        registerUser emptyDocument req hashed nowMs
            = (⟨400, .message "All fields are required"⟩, none) ∨
          (registerUser emptyDocument req hashed nowMs).1
            = ⟨201, .message "User registered successfully"⟩) ∧
      (∀ A req,
        login A emptyDocument req
            = (⟨400, .message "Username and password are required"⟩, none) ∨
          login A emptyDocument req = (⟨401, .message "Invalid credentials"⟩, none)) ∧
      (∀ req nowMs,
        addBook emptyDocument req nowMs
            = (⟨400, .message "Title, author, and category are required"⟩, none) ∨
          (addBook emptyDocument req nowMs).1.status = 201) ∧
      (∀ req userId nowMs nowIso,
        borrow emptyDocument req userId nowMs nowIso
            = (⟨400, .message "Book ID, borrower name, and due date are required"⟩, none) ∨
          borrow emptyDocument req userId nowMs nowIso
            = (⟨404, .message "Book not found"⟩, none)) ∧
      (∀ borrowId nowIso,
        giveBack emptyDocument borrowId nowIso
            = (⟨400, .message "Borrow ID is required"⟩, none) ∨
          giveBack emptyDocument borrowId nowIso
            = (⟨404, .message "Borrowed book record not found"⟩, none)) ∧
      (∀ category, listBooks emptyDocument category = (⟨200, .books []⟩, none)) ∧
      listCategories emptyDocument = (⟨200, .categories []⟩, none) ∧
      (∀ E userId q nowMs,
        listBorrowed E emptyDocument userId q nowMs = (⟨200, .records []⟩, none))) := by
  refine ⟨⟨rfl, rfl, fun _ => rfl⟩, ?_, ?_, rfl, registerUser_emptyDocument,
    login_emptyDocument, addBook_emptyDocument, borrow_emptyDocument, giveBack_emptyDocument,
    fun _ => rfl, rfl, ?_⟩
  · intro f
    cases f with
    | missing => simp [readDataJson, readJson, hasCollections, Json.field, Json.isArray]
    | corrupt => simp [readDataJson, readJson, hasCollections, Json.field, Json.isArray]
    | json v => simp [readDataJson, readJson]
  · intro s
    cases s with
    | none => exact ⟨rfl, rfl⟩
    | some d => exact ⟨rfl, rfl⟩
  · intro E userId q nowMs
    unfold listBorrowed
    rw [queryBorrowed_eq_filter]
    rfl

/-- C18 counterexample: the file holds the JSON object with no members; `readData` returns
that object, which has none of the three collections. -/
theorem readData_shape_counterexample :
    readJson (.json (.obj [])) = some (.obj []) ∧
    readDataJson (.json (.obj [])) = .obj [] ∧
    hasCollections (readDataJson (.json (.obj []))) = false ∧
    Json.field "users" (readDataJson (.json (.obj []))) = none :=
  ⟨rfl, rfl, rfl, rfl⟩

/-! ## C19: two borrow calls that both load before either saves -/

theorem borrow_eval_available {data : Document} {pre : List Book} {book : Book}
    {post : List Book} {bookId borrowerName dueDate : String} (userId : String) (nowMs : Nat)
    (nowIso : String) (hb : bookId ≠ "") (hn : borrowerName ≠ "") (hd : dueDate ≠ "")
    (hbooks : data.books = pre ++ book :: post)
    (hpre : ∀ y ∈ pre, (y.id == bookId) = false) (hid : book.id = bookId)
    (hav : book.available = true) :
    borrow data ⟨some bookId, some borrowerName, some dueDate⟩ userId nowMs nowIso
      = (⟨201, .record (recordFor book bookId borrowerName dueDate userId nowMs nowIso)⟩,
          some { users := data.users,
                 books := pre ++ { book with available := false } :: post,
                 borrowedBooks := data.borrowedBooks ++
                  [recordFor book bookId borrowerName dueDate userId nowMs nowIso] }) := by
  rw [borrow_eval userId nowMs nowIso hb hn hd hbooks hpre hid, if_neg (by simp [hav])]
  rfl

/-- C19 (amended): for every store in which bookId resolves to an available book and every
two borrow requests for it with non-empty fields whose writes succeed, under each of the
four schedules in which both calls load before either saves, both calls answer 201, each
with its own BorrowRecord for the book, and the store ends as the document of the call that
saved last: the book's flag is false, as that call wrote it, and the ledger is the loaded
one followed by that call's record only (the record of the call that saved first is in
its response and not in the final ledger). -/
theorem racing_borrows_both_succeed (s : Store) (bookId : String) (book : Book)
    (name1 due1 user1 : String) (ms1 : Nat) (iso1 : String)
    (name2 due2 user2 : String) (ms2 : Nat) (iso2 : String)
    (hres : resolveBook (readData s) bookId = some book) (hav : book.available = true)
    (hb : bookId ≠ "") (hn1 : name1 ≠ "") (hd1 : due1 ≠ "") (hn2 : name2 ≠ "")
    (hd2 : due2 ≠ "") :
    ∃ pre post,
      (readData s).books = pre ++ book :: post ∧ (∀ y ∈ pre, y.id ≠ bookId) ∧
      ∀ sched ∈ bothLoadFirst,
        runRace ⟨⟨some bookId, some name1, some due1⟩, user1, ms1, iso1, true⟩
            ⟨⟨some bookId, some name2, some due2⟩, user2, ms2, iso2, true⟩
            (s, .waiting, .waiting) sched
          = (some { users := (readData s).users,
                    books := pre ++ { book with available := false } :: post,
                    borrowedBooks := (readData s).borrowedBooks ++
                      [if sched.getLast? = some true
                        then recordFor book bookId name2 due2 user2 ms2 iso2
                        else recordFor book bookId name1 due1 user1 ms1 iso1] },
              .done ⟨201, .record (recordFor book bookId name1 due1 user1 ms1 iso1)⟩,
              .done ⟨201, .record (recordFor book bookId name2 due2 user2 ms2 iso2)⟩) := by
  obtain ⟨hid, pre, post, hsplit, hpre⟩ := split_of_resolveBook hres
  have h1 := borrow_eval_available user1 ms1 iso1 hb hn1 hd1 hsplit hpre hid hav
  have h2 := borrow_eval_available user2 ms2 iso2 hb hn2 hd2 hsplit hpre hid hav
  refine ⟨pre, post, hsplit, fun y hy => by simpa using hpre y hy, ?_⟩
  intro sched hsched
  simp only [bothLoadFirst, List.mem_cons, List.mem_singleton, List.not_mem_nil,
    or_false] at hsched
  rcases hsched with rfl | rfl | rfl | rfl <;>
    simp [runRace, stepCall, h1, h2, commit, writeData]

/-- C19 witness: two borrows of the available sample book racing under the schedule
load, load, save, save. -/
theorem racing_borrows_both_succeed_witness :
    (resolveBook (readData (some sampleDoc)) "b1" = some sampleBook ∧
      sampleBook.available = true ∧ "b1" ≠ "" ∧ "Alice" ≠ "" ∧ "2024-01-10" ≠ "" ∧
      "Bob" ≠ "" ∧ "2024-02-01" ≠ "" ∧ [false, true, false, true] ∈ bothLoadFirst) ∧
    (runRace aliceCall bobCall (some sampleDoc, .waiting, .waiting)
        [false, true, false, true]).2
      = (.done ⟨201, .record (recordFor sampleBook "b1" "Alice" "2024-01-10" "1" 7
            "2024-01-01T09:00:00.000Z")⟩,
          .done ⟨201, .record (recordFor sampleBook "b1" "Bob" "2024-02-01" "2" 8
            "2024-01-01T09:00:00.001Z")⟩) := by
  refine ⟨by decide, ?_⟩
  obtain ⟨pre, post, _, _, h⟩ :=
    racing_borrows_both_succeed (some sampleDoc) "b1" sampleBook "Alice" "2024-01-10" "1" 7
      "2024-01-01T09:00:00.000Z" "Bob" "2024-02-01" "2" 8 "2024-01-01T09:00:00.001Z"
      (by decide) rfl (by decide) (by decide) (by decide) (by decide) (by decide)
  exact congrArg Prod.snd (h _ (by decide))

/-- C19 counterexample: on the sample document, under each of the four schedules in which
both calls load before either saves, both borrow calls answer 201, and the final ledger
holds one record, the only open record for the book: the race does not leave two
BorrowRecords for the one book. -/
theorem racing_borrows_counterexample :
    bothLoadFirst.map raceSummary
      = [(some 201, some 201, 1, 1), (some 201, some 201, 1, 1),
         (some 201, some 201, 1, 1), (some 201, some 201, 1, 1)] := by
  decide

/-! ## C20: a return undoes a borrow on the catalog -/

theorem toDigitsCore_ne_nil (base : Nat) :
    ∀ (fuel n : Nat) (ds : List Char), ds ≠ [] → Nat.toDigitsCore base fuel n ds ≠ []
  | 0, _, ds, h => by simpa [Nat.toDigitsCore] using h
  | fuel + 1, n, ds, _ => by
    unfold Nat.toDigitsCore
    simp only
    split
    · simp
    · exact toDigitsCore_ne_nil base fuel _ _ (by simp)

theorem toString_nat_ne_empty (n : Nat) : toString n ≠ "" := by
  have h : Nat.toDigits 10 n ≠ [] := by
    unfold Nat.toDigits Nat.toDigitsCore
    simp only
    split
    · simp
    · exact toDigitsCore_ne_nil 10 _ _ _ (by simp)
  intro heq
  apply h
  have := congrArg String.data heq
  simpa [toString, Nat.repr, List.asString] using this

theorem restore_available (book : Book) (hav : book.available = true) :
    ({ ({ book with available := false } : Book) with available := true } : Book) = book := by
  cases book
  simp_all

/-- C20: for every store whose book ids are pairwise distinct, every available book `b` of
the catalog and every clock value whose id string is the id of no record of the ledger, when
the borrow of `b` (write succeeding) answers 201, it answers with a record whose id is that
string; the giveBack of that id (write succeeding) answers 200 with the record marked
returned, and leaves a document whose Books collection and users equal those before the
borrow and whose ledger is the ledger before the borrow followed by that one record with
`returned = true`; and a further borrow of `b` with non-empty borrowerName and dueDate then
answers 201 again. -/
theorem giveBack_undoes_borrow (s : Store) (book : Book)
    (borrowerName dueDate userId : String) (nowMs : Nat) (nowIso returnIso : String)
    (hdist : DistinctBookIds (readData s)) (hmem : book ∈ (readData s).books)
    (hav : book.available = true)
    (hfresh : ∀ r ∈ (readData s).borrowedBooks, r.id ≠ toString nowMs)
    (hsucc : (postBorrow s ⟨some book.id, some borrowerName, some dueDate⟩ userId nowMs
      nowIso true).1.status = 201) :
    ∃ record s1 s2,
      postBorrow s ⟨some book.id, some borrowerName, some dueDate⟩ userId nowMs nowIso true
        = (⟨201, .record record⟩, s1) ∧
      record.id = toString nowMs ∧ record.bookId = book.id ∧ record.returned = false ∧
      postReturn s1 (some record.id) returnIso true
        = (⟨200, .record { record with returned := true, returnDate := some returnIso }⟩,
            s2) ∧
      (readData s2).books = (readData s).books ∧
      (readData s2).users = (readData s).users ∧
      (readData s2).borrowedBooks
        = (readData s).borrowedBooks ++
            [{ record with returned := true, returnDate := some returnIso }] ∧
      ∀ (name2 due2 user2 : String) (ms2 : Nat) (iso2 : String), name2 ≠ "" → due2 ≠ "" →
        (postBorrow s2 ⟨some book.id, some name2, some due2⟩ user2 ms2 iso2 true).1.status
          = 201 := by
  have hb : book.id ≠ "" := by
    intro h
    rw [h] at hsucc
    simp [postBorrow, commit, borrow, truthy] at hsucc
  have hn : borrowerName ≠ "" := by
    intro h
    subst h
    simp [postBorrow, commit, borrow, truthy] at hsucc
  have hd : dueDate ≠ "" := by
    intro h
    subst h
    simp [postBorrow, commit, borrow, truthy] at hsucc
  obtain ⟨pre, post, hsplit, hpre0, _⟩ :=
    split_of_mem_nodup (fun b : Book => b.id) hmem hdist
  have hpre : ∀ y ∈ pre, (y.id == book.id) = false := by
    intro y hy
    simpa using hpre0 y hy
  have h1 := borrow_eval_available userId nowMs nowIso hb hn hd hsplit hpre rfl hav
  have hne : toString nowMs ≠ "" := toString_nat_ne_empty nowMs
  have hrpre : ∀ y ∈ (readData s).borrowedBooks, (y.id == toString nowMs) = false := by
    intro y hy
    simpa using hfresh y hy
  have hfind : findIndex (fun b : Book => b.id == book.id)
      (pre ++ { book with available := false } :: post) = some pre.length :=
    findIndex_append_cons pre _ post (by simp) hpre
  have h2 := @giveBack_eval
    (Document.mk (readData s).users (pre ++ { book with available := false } :: post)
        ((readData s).borrowedBooks ++
          [recordFor book book.id borrowerName dueDate userId nowMs nowIso]))
    (readData s).borrowedBooks
    (recordFor book book.id borrowerName dueDate userId nowMs nowIso) []
    (toString nowMs) returnIso hne rfl hrpre rfl
  rw [if_neg (by simp [recordFor])] at h2
  simp only [recordFor] at h2
  rw [hfind] at h2
  simp only at h2
  rw [modify_append_cons_length, restore_available book hav, ← hsplit] at h2
  have h2b : giveBack
      (Document.mk (readData s).users (pre ++ { book with available := false } :: post)
        ((readData s).borrowedBooks ++
          [recordFor book book.id borrowerName dueDate userId nowMs nowIso]))
      (some (toString nowMs)) returnIso
      = (⟨200, .record (markReturned (recordFor book book.id borrowerName dueDate userId nowMs nowIso)
          returnIso)⟩,
          some (Document.mk (readData s).users (readData s).books
        ((readData s).borrowedBooks ++
          [markReturned (recordFor book book.id borrowerName dueDate userId nowMs nowIso)
            returnIso]))) := h2
  have hA : postBorrow s ⟨some book.id, some borrowerName, some dueDate⟩ userId nowMs nowIso
      true
      = (⟨201, .record (recordFor book book.id borrowerName dueDate userId nowMs nowIso)⟩,
          some (Document.mk (readData s).users (pre ++ { book with available := false } :: post)
        ((readData s).borrowedBooks ++
          [recordFor book book.id borrowerName dueDate userId nowMs nowIso]))) := by
    unfold postBorrow
    rw [h1, commit_some]
    rfl
  have hB : postReturn
      (some (Document.mk (readData s).users (pre ++ { book with available := false } :: post)
        ((readData s).borrowedBooks ++
          [recordFor book book.id borrowerName dueDate userId nowMs nowIso])))
      (some (recordFor book book.id borrowerName dueDate userId nowMs nowIso).id) returnIso true
      = (⟨200, .record (markReturned (recordFor book book.id borrowerName dueDate userId nowMs nowIso)
          returnIso)⟩,
          some (Document.mk (readData s).users (readData s).books
        ((readData s).borrowedBooks ++
          [markReturned (recordFor book book.id borrowerName dueDate userId nowMs nowIso)
            returnIso]))) := by
    show commit _ (giveBack
      (Document.mk (readData s).users (pre ++ { book with available := false } :: post)
        ((readData s).borrowedBooks ++
          [recordFor book book.id borrowerName dueDate userId nowMs nowIso]))
      (some (toString nowMs)) returnIso) true = _
    rw [h2b, commit_some]
    rfl
  refine ⟨_, _, _, hA, rfl, rfl, rfl, hB, rfl, rfl, rfl, ?_⟩
  intro name2 due2 user2 ms2 iso2 hn2 hd2
  have h3 := @borrow_eval_available
    (Document.mk (readData s).users (readData s).books
        ((readData s).borrowedBooks ++
          [markReturned (recordFor book book.id borrowerName dueDate userId nowMs nowIso)
            returnIso]))
    pre book post book.id name2 due2 user2 ms2 iso2 hb hn2 hd2 hsplit hpre rfl hav
  show (commit _ (borrow
    (Document.mk (readData s).users (readData s).books
        ((readData s).borrowedBooks ++
          [markReturned (recordFor book book.id borrowerName dueDate userId nowMs nowIso)
            returnIso]))
    ⟨some book.id, some name2, some due2⟩ user2 ms2 iso2) true).1.status = 201
  rw [h3, commit_some]

/-- C20 witness: borrowing the sample book at clock value 7 and returning record `7`. -/
theorem giveBack_undoes_borrow_witness :
    (DistinctBookIds (readData (some sampleDoc)) ∧ sampleBook ∈ (readData (some sampleDoc)).books ∧
      sampleBook.available = true ∧
      (∀ r ∈ (readData (some sampleDoc)).borrowedBooks, r.id ≠ toString 7) ∧
      (postBorrow (some sampleDoc) ⟨some sampleBook.id, some "Alice", some "2024-01-10"⟩ "1" 7
        "2024-01-01T09:00:00.000Z" true).1.status = 201) ∧
    (readData (postReturn
        (postBorrow (some sampleDoc) ⟨some sampleBook.id, some "Alice", some "2024-01-10"⟩ "1" 7
          "2024-01-01T09:00:00.000Z" true).2
        (some (toString 7)) "2024-01-02T09:00:00.000Z" true).2).books
      = (readData (some sampleDoc)).books := by
  refine ⟨by decide, ?_⟩
  obtain ⟨record, s1, s2, hA, hid, _, _, hB, hbooks, _⟩ :=
    giveBack_undoes_borrow (some sampleDoc) sampleBook "Alice" "2024-01-10" "1" 7
      "2024-01-01T09:00:00.000Z" "2024-01-02T09:00:00.000Z" (by decide) (by decide) rfl
      (by decide) (by decide)
  rw [hA, ← hid, hB]
  exact hbooks

end BookLending
